import Mathlib

/-! tex2bmp: TEX (4-bit indexed, RGB555 palette) to 24-bit BMP

A shallow embedding of `src/tex2bmp.cpp`.

* Bytes, and the values of `uint8_t` / `uint16_t` variables, are natural
  numbers; every narrowing conversion of the source is an explicit `%`.
* `int32_t` values are integers; every `int` operation of the source goes
  through `wrapInt32`.
* `std::ifstream` is a record of the file's bytes, the read position and the
  `eofbit` / `failbit` flags, with the standard's rules for `seekg`, `read`
  and `get` on a stream that is no longer `good()`.
* `std::vector::operator[]` past the end of a vector reads whatever the
  memory holds there: that content is a parameter (`Stray`) of the pixel loop,
  and the results hold for every value of it.
* The file system is a function from paths to contents, together with the
  set of paths that can be opened for writing.
-/

namespace Tex2Bmp

/-! ## Colour decoder -/

/-- The `Color` struct of the source: three `uint8_t` channels. -/
structure Color where
  r : Nat
  g : Nat
  b : Nat
deriving DecidableEq

/-- The function `decodeRGB555` of the source (lines 32-44). The argument is the
`uint16_t` pixel; each `% 256` is a conversion to `uint8_t`. -/
def decodeRGB555 (pixel : Nat) : Color :=
  let r := ((pixel >>> 10) &&& 0x1F) % 256
  let g := ((pixel >>> 5) &&& 0x1F) % 256
  let b := (pixel &&& 0x1F) % 256
  { r := ((r * 255) / 31) % 256
    g := ((g * 255) / 31) % 256
    b := ((b * 255) / 31) % 256 }

/-! ## Fixed-width integers -/

/-- Reduce an integer to the range of `int32_t` (two's complement). -/
def wrapInt32 (x : Int) : Int :=
  (x + 2147483648) % 4294967296 - 2147483648

/-- The value of four bytes in memory, least significant first. -/
def le32 (bs : List Nat) : Nat :=
  bs.getD 0 0 + 256 * bs.getD 1 0 + 65536 * bs.getD 2 0 + 16777216 * bs.getD 3 0

/-- The `int32_t` whose four bytes in memory (little-endian host) are `bs`. -/
def int32OfBytes (bs : List Nat) : Int :=
  wrapInt32 (le32 bs)

/-- The two bytes of a `uint16_t` in memory, least significant first. -/
def bytesOfUInt16 (v : Nat) : List Nat :=
  [v % 256, v / 256 % 256]

/-- The four bytes of a `uint32_t` in memory, least significant first. -/
def bytesOfUInt32 (v : Nat) : List Nat :=
  [v % 256, v / 256 % 256, v / 65536 % 256, v / 16777216 % 256]

/-- The four bytes of an `int32_t` in memory: those of its two's complement. -/
def bytesOfInt32 (v : Int) : List Nat :=
  bytesOfUInt32 (v % 4294967296).toNat

/-! ## Input stream -/

/-- The state of a `std::ifstream` opened in binary mode on a file. -/
structure IfStream where
  bytes : List Nat
  pos : Nat
  eofbit : Bool
  failbit : Bool
deriving DecidableEq

namespace IfStream

/-- A freshly opened stream. -/
def openOn (bytes : List Nat) : IfStream :=
  { bytes := bytes, pos := 0, eofbit := false, failbit := false }

/-- The member `good()`: no error flag is set. -/
def good (s : IfStream) : Bool :=
  !s.eofbit && !s.failbit

/-- The call `seekg(off, std::ios::beg)`: clears `eofbit`, then does nothing when
`failbit` is set, and otherwise moves the read position (a position past the
end of the file is accepted; the next read finds no byte there). -/
def seekgBeg (s : IfStream) (off : Nat) : IfStream :=
  if s.failbit then { s with eofbit := false }
  else { s with pos := off, eofbit := false }

/-- The call `seekg(off, std::ios::end)`: as `seekgBeg`, counted from the end of
the file; a target before the start of the file makes the seek fail and sets
`failbit`. -/
def seekgEnd (s : IfStream) (off : Int) : IfStream :=
  if s.failbit then { s with eofbit := false }
  else if (s.bytes.length : Int) + off < 0 then { s with eofbit := false, failbit := true }
  else { s with pos := ((s.bytes.length : Int) + off).toNat, eofbit := false }

/-- The call `read(buf, n)`: the bytes extracted, and the stream afterwards. On a
stream that is not `good()` nothing is extracted and `failbit` is set; when the
file ends before `n` bytes the ones there are extracted and `eofbit` and
`failbit` are set. -/
def read (s : IfStream) (n : Nat) : List Nat × IfStream :=
  if s.good then
    let got := (s.bytes.drop s.pos).take n
    if got.length < n then
      (got, { s with pos := s.pos + got.length, eofbit := true, failbit := true })
    else
      (got, { s with pos := s.pos + n })
  else
    ([], { s with failbit := true })

/-- The call `get()`: the next byte as an `int`, or `EOF` (`-1`) when the stream is
not `good()` or has no byte left. -/
def get (s : IfStream) : Int × IfStream :=
  if s.good then
    match s.bytes.drop s.pos with
    | b :: _ => ((b : Int), { s with pos := s.pos + 1 })
    | [] => (-1, { s with eofbit := true, failbit := true })
  else
    (-1, { s with failbit := true })

end IfStream

/-- What a buffer `buf` holds after `read` stored the extracted bytes `got` at
its start: the rest of the buffer keeps its old content. -/
def storeInto (buf got : List Nat) : List Nat :=
  got ++ buf.drop got.length

/-! ## The stages of `convertFile` -/

/-- Stage A (lines 56-62): `width` and `height` start as `0`; the stream is sought
to `0x08` and four bytes are read into each. The result is `(width, height)`
and the stream afterwards. -/
def readDimensions (s : IfStream) : (Int × Int) × IfStream :=
  let rw := (s.seekgBeg 0x08).read 4
  let width := int32OfBytes (storeInto [0, 0, 0, 0] rw.1)
  let rh := rw.2.read 4
  let height := int32OfBytes (storeInto [0, 0, 0, 0] rh.1)
  ((width, height), rh.2)

/-- The dimension check of line 66. -/
def invalidDimensions (width height : Int) : Bool :=
  decide (width ≤ 0) || decide (height ≤ 0) || decide (width > 4096) || decide (height > 4096)

/-- Line 73: `size_t dataSize = (width * height) / 2`, an `int` product and a
truncating `int` division, converted to `size_t` (the value is not negative
once the dimension check has passed). -/
def dataSizeOf (width height : Int) : Nat :=
  (Int.tdiv (wrapInt32 (width * height)) 2).toNat

/-- Stage B (lines 71-77): seek to the header size `24`, and read `dataSize`
bytes into the zero-filled vector `rawBytes`. The result is `rawBytes` and the
stream afterwards. -/
def readImageData (s : IfStream) (dataSize : Nat) : List Nat × IfStream :=
  let rd := (s.seekgBeg 24).read dataSize
  (storeInto (List.replicate dataSize 0) rd.1, rd.2)

/-- One turn of the palette loop (lines 84-87): two `get()` calls, each result
converted to `uint8_t`, combined little-endian into a `uint16_t` and decoded. -/
def readPaletteEntry (s : IfStream) : Color × IfStream :=
  let g1 := s.get
  let b1 := (g1.1 % 256).toNat
  let g2 := g1.2.get
  let b2 := (g2.1 % 256).toNat
  let raw := ((b2 <<< 8) ||| b1) % 65536
  (decodeRGB555 raw, g2.2)

/-- The palette loop (lines 83-88) run for `n` turns. -/
def readPaletteLoop : Nat → IfStream → List Color × IfStream
  | 0, s => ([], s)
  | n + 1, s =>
    let e := readPaletteEntry s
    let rest := readPaletteLoop n e.2
    (e.1 :: rest.1, rest.2)

/-- Stage C (lines 79-88): seek to 32 bytes before the end and read 16 entries. -/
def readPalette (s : IfStream) : List Color × IfStream :=
  readPaletteLoop 16 (s.seekgEnd (-32))

/-- Stage D (lines 90-100): each byte gives its low nibble, then its high nibble;
`% 256` is the conversion of `push_back` to `uint8_t`. -/
def unpackPixels : List Nat → List Nat
  | [] => []
  | b :: rest => (b &&& 0x0F) % 256 :: ((b >>> 4) &&& 0x0F) % 256 :: unpackPixels rest

/-- The members of a parsed texture: what stages A to D leave in the local
variables `width`, `height`, `rawBytes`, `palette` and `pixelIndices`. -/
structure Texture where
  width : Int
  height : Int
  rawBytes : List Nat
  palette : List Color
  pixelIndices : List Nat
deriving DecidableEq

/-- Stages A to D on the bytes of an opened input file, without the dimension
check (which `convertFile` makes between stages A and B). -/
def parseTexture (bytes : List Nat) : Texture :=
  let a := readDimensions (IfStream.openOn bytes)
  let b := readImageData a.2 (dataSizeOf a.1.1 a.1.2)
  let c := readPalette b.2
  { width := a.1.1, height := a.1.2, rawBytes := b.1, palette := c.1,
    pixelIndices := unpackPixels b.1 }

/-! ## Output path -/

/-- The call `find_last_of(c)` of `std::string`: the position of the last
occurrence, or `none` for `npos`. -/
def findLastOf (c : Char) : List Char → Option Nat
  | [] => none
  | x :: rest =>
    match findLastOf c rest with
    | some i => some (i + 1)
    | none => if x = c then some 0 else none

/-- The call `substr(0, count)` of `std::string`, where `none` is `npos`. -/
def substr0 (s : List Char) : Option Nat → List Char
  | none => s
  | some count => s.take count

/-- Line 104: the input path cut at its last `.`, followed by `.bmp`. -/
def outputPathOf (inputPath : String) : String :=
  String.mk (substr0 inputPath.data (findLastOf '.' inputPath.data) ++ ".bmp".data)

/-! ## Bitmap header -/

/-- The struct `BmpHeader` (lines 9-27), packed, with its default member values. -/
structure BmpHeader where
  signature : Nat := 0x4D42
  fileSize : Nat
  reserved : Nat := 0
  dataOffset : Nat := 54
  headerSize : Nat := 40
  width : Int
  height : Int
  planes : Nat := 1
  bpp : Nat := 24
  compression : Nat := 0
  imageSize : Nat := 0
  xRes : Int := 0
  yRes : Int := 0
  colorsUsed : Nat := 0
  colorsImportant : Nat := 0
deriving DecidableEq

/-- The bytes of a packed `BmpHeader` in memory (little-endian host), which line
115 writes. -/
def BmpHeader.toBytes (h : BmpHeader) : List Nat :=
  bytesOfUInt16 h.signature ++ bytesOfUInt32 h.fileSize ++ bytesOfUInt32 h.reserved ++
  bytesOfUInt32 h.dataOffset ++ bytesOfUInt32 h.headerSize ++ bytesOfInt32 h.width ++
  bytesOfInt32 h.height ++ bytesOfUInt16 h.planes ++ bytesOfUInt16 h.bpp ++
  bytesOfUInt32 h.compression ++ bytesOfUInt32 h.imageSize ++ bytesOfInt32 h.xRes ++
  bytesOfInt32 h.yRes ++ bytesOfUInt32 h.colorsUsed ++ bytesOfUInt32 h.colorsImportant

/-- The constant `sizeof(BmpHeader)`: 2 + 4 * 4 + 2 * 4 + 2 * 2 + 6 * 4 bytes. -/
def sizeofBmpHeader : Nat := 54

/-- Lines 110-113: the header for an image of the given dimensions. The file size
is `sizeof(BmpHeader)` plus the `int` product `width * height * 3`, stored in a
`uint32_t`. -/
def makeHeader (width height : Int) : BmpHeader :=
  { width := width
    height := height
    fileSize :=
      (((sizeofBmpHeader : Int) + wrapInt32 (wrapInt32 (width * height) * 3)) % 4294967296).toNat }

/-! ## Pixel loop -/

/-- What the memory holds past the end of the two vectors that the pixel loop
subscripts without a bounds check: the byte found at `pixelIndices[i]` for `i`
past the end, and the three bytes found at `palette[idx]` for `idx` past the
end. The source fixes neither. -/
structure Stray where
  index : Nat → Nat
  color : Nat → Color

/-- The `int` expression `y * width + x` of line 120, converted to an index. -/
def pixelIndex (width : Int) (y x : Nat) : Nat :=
  (wrapInt32 (wrapInt32 ((y : Int) * width) + (x : Int))).toNat

/-- Line 120: `uint8_t idx = pixelIndices[i]`, the element within the vector and
the stray byte past its end. -/
def indexAt (mem : Stray) (pixelIndices : List Nat) (i : Nat) : Nat :=
  match pixelIndices[i]? with
  | some idx => idx
  | none => mem.index i % 256

/-- Line 127: `palette[idx]`, the entry within the vector and the three stray
bytes past its end. -/
def colorAt (mem : Stray) (palette : List Color) (idx : Nat) : Color :=
  match palette[idx]? with
  | some c => c
  | none =>
    { r := (mem.color idx).r % 256, g := (mem.color idx).g % 256, b := (mem.color idx).b % 256 }

/-- Lines 120-128: the colour of the pixel whose index is at position `i` of
`pixelIndices`: black for index `0`, the palette entry otherwise. -/
def resolveColor (mem : Stray) (pixelIndices : List Nat) (palette : List Color) (i : Nat) :
    Color :=
  if indexAt mem pixelIndices i = 0 then { r := 0, g := 0, b := 0 }
  else colorAt mem palette (indexAt mem pixelIndices i)

/-- Lines 120-133 for one pixel: the three bytes put to the output. -/
def putPixel (mem : Stray) (pixelIndices : List Nat) (palette : List Color) (width : Int)
    (y x : Nat) : List Nat :=
  [(resolveColor mem pixelIndices palette (pixelIndex width y x)).r,
   (resolveColor mem pixelIndices palette (pixelIndex width y x)).g,
   (resolveColor mem pixelIndices palette (pixelIndex width y x)).b]

/-- The inner loop (line 119) for row `y`: `x` from `0` to `width - 1`. -/
def writeRow (mem : Stray) (pixelIndices : List Nat) (palette : List Color) (width : Int)
    (y : Nat) : List Nat :=
  ((List.range width.toNat).map (putPixel mem pixelIndices palette width y)).flatten

/-- The outer loop (line 118): `y` from `height - 1` down to `0`. -/
def writePixels (mem : Stray) (pixelIndices : List Nat) (palette : List Color)
    (width height : Int) : List Nat :=
  ((List.range height.toNat).reverse.map (writeRow mem pixelIndices palette width)).flatten

/-! ## Files and `convertFile` -/

/-- The files the program can see: the content of each path that can be opened
for reading, and whether a path can be opened for writing. -/
structure FileSystem where
  contents : String → Option (List Nat)
  writable : String → Bool

/-- The file system after `bytes` were written to `path`. -/
def FileSystem.write (fs : FileSystem) (path : String) (bytes : List Nat) : FileSystem :=
  { fs with contents := fun p => if p = path then some bytes else fs.contents p }

/-- How a call of `convertFile` ends. -/
inductive Outcome where
  /-- Line 52: "Error: Could not open file." -/
  | openError
  /-- Line 67: "Error: Invalid dimensions found in header." -/
  | invalidDimensions
  /-- Line 107: "Error: Could not write BMP." -/
  | writeError
  /-- Line 138: "Success! Saved: ...", with the bytes written to the output. -/
  | saved (bytes : List Nat)
deriving DecidableEq

/-- The function `convertFile` of the source (lines 47-139): how the call ends and
the file system afterwards, given the stray memory `mem` that the pixel loop
meets if it subscripts past the end of a vector. No read of the input is
checked (the source tests the stream only after opening it), and every write
to an output stream that could be opened is taken to succeed. -/
def convertFile (mem : Stray) (fs : FileSystem) (inputPath : String) : Outcome × FileSystem :=
  match fs.contents inputPath with
  | none => (Outcome.openError, fs)
  | some bytes =>
    let t := parseTexture bytes
    if invalidDimensions t.width t.height then (Outcome.invalidDimensions, fs)
    else if fs.writable (outputPathOf inputPath) then
      let out := (makeHeader t.width t.height).toBytes ++
        writePixels mem t.pixelIndices t.palette t.width t.height
      (Outcome.saved out, fs.write (outputPathOf inputPath) out)
    else (Outcome.writeError, fs)

/-- Follows the spec's words (the source has no packer): an even-length list of
indices packed two to a byte, low nibble first: `(hi << 4) | lo`. -/
def specPackNibbles : List Nat → List Nat
  | lo :: hi :: rest => ((hi <<< 4) ||| lo) :: specPackNibbles rest
  | _ => []

/-- Follows the spec's words: the signed 32-bit little-endian integer at byte
offset `off` of the stream (a byte past the end of the stream counts as `0`). -/
def specInt32At (bytes : List Nat) (off : Nat) : Int :=
  wrapInt32 (le32 (bytes.drop off))

/-- The colour `decodeRGB555(0xFFFF)` of a palette entry read from two `EOF`s. -/
def eofColor : Color := { r := 255, g := 255, b := 255 }

/-- The palette entry the loop body computes from the two bytes at offset `p`. -/
def paletteEntryAt (bytes : List Nat) (p : Nat) : Color :=
  decodeRGB555 ((((bytes.getD (p + 1) 0 % 256) <<< 8) ||| (bytes.getD p 0 % 256)) % 65536)

/-- A file system with one readable file, in which every path can be written. -/
def singleFile (path : String) (bytes : List Nat) : FileSystem :=
  { contents := fun p => if p = path then some bytes else none
    writable := fun _ => true }

/-- A 24-byte TEX header with the given dimensions. -/
def texHeader (width height : Nat) : List Nat :=
  List.replicate 8 0 ++ bytesOfUInt32 width ++ bytesOfUInt32 height ++ List.replicate 8 0

/-- A 2x2 texture of 58 bytes: header, the packed indices `[1, 0, 1, 1]`, and a
palette whose entry 1 is `0x7FFF` and whose other entries are `0`. -/
def sampleTexture : List Nat :=
  texHeader 2 2 ++ [0x01, 0x11] ++ [0x00, 0x00, 0xFF, 0x7F] ++ List.replicate 28 0

/-- The 66 bytes of the bitmap that `convertFile` writes for `sampleTexture`. -/
def sampleBitmap : List Nat :=
  [0x42, 0x4D, 66, 0, 0, 0, 0, 0, 0, 0, 54, 0, 0, 0,
   40, 0, 0, 0, 2, 0, 0, 0, 2, 0, 0, 0, 1, 0, 24, 0,
   0, 0, 0, 0, 0, 0, 0, 0, 0, 0, 0, 0, 0, 0, 0, 0, 0, 0, 0, 0, 0, 0, 0, 0,
   255, 255, 255, 255, 255, 255,
   255, 255, 255, 0, 0, 0]

/-- A 32-byte stream with dimensions 8x8: the header and 8 of the 32 bytes of
pixel data. Its last 32 bytes are the whole stream, so bytes 0 and 1 are where
palette entry 0 would lie. -/
def truncatedDataTexture : List Nat :=
  texHeader 8 8 ++ List.replicate 8 0

/-- A 16-byte stream with dimensions 2x1: it ends right after the height. -/
def shortTexture : List Nat :=
  List.replicate 8 0 ++ bytesOfUInt32 2 ++ bytesOfUInt32 1

/-- The 60 bytes of the bitmap that `convertFile` writes for `shortTexture`. -/
def shortBitmap : List Nat :=
  [0x42, 0x4D, 60, 0, 0, 0, 0, 0, 0, 0, 54, 0, 0, 0,
   40, 0, 0, 0, 2, 0, 0, 0, 1, 0, 0, 0, 1, 0, 24, 0,
   0, 0, 0, 0, 0, 0, 0, 0, 0, 0, 0, 0, 0, 0, 0, 0, 0, 0, 0, 0, 0, 0, 0, 0,
   0, 0, 0, 0, 0, 0]

/-- A 26-byte stream with dimensions 4x2: the header and 2 of the 4 bytes of
pixel data, packing the indices `[1, 2, 3, 4]`. -/
def halfDataTexture : List Nat :=
  texHeader 4 2 ++ [0x21, 0x43]

/-- The 78 bytes of the bitmap that `convertFile` writes for `halfDataTexture`:
the bottom row (the four missing pixels) black, the top row white. -/
def halfDataBitmap : List Nat :=
  [0x42, 0x4D, 78, 0, 0, 0, 0, 0, 0, 0, 54, 0, 0, 0,
   40, 0, 0, 0, 4, 0, 0, 0, 2, 0, 0, 0, 1, 0, 24, 0,
   0, 0, 0, 0, 0, 0, 0, 0, 0, 0, 0, 0, 0, 0, 0, 0, 0, 0, 0, 0, 0, 0, 0, 0,
   0, 0, 0, 0, 0, 0, 0, 0, 0, 0, 0, 0,
   255, 255, 255, 255, 255, 255, 255, 255, 255, 255, 255, 255]

/-- A 57-byte stream with dimensions 3x1, an odd pixel count: the header, one
byte of pixel data (`dataSize = 1`, the indices `[1, 2]`) and the palette. -/
def oddTexture : List Nat :=
  texHeader 3 1 ++ [0x21] ++ List.replicate 32 0

/-- A 40-byte stream with dimensions 2x2: the header, the two bytes of pixel
data `0x82, 0x28` (indices `[2, 8, 8, 2]`) and 14 more bytes. Its last 32 bytes
start at offset 8, so the 16 palette entries lie over the width, the height,
the rest of the header and the pixel data. -/
def overlapTexture : List Nat :=
  texHeader 2 2 ++ [0x82, 0x28] ++ List.replicate 14 0

/-- The 66 bytes of the bitmap that `convertFile` writes for `overlapTexture`:
index 2 has the colour decoded from the height bytes `2, 0`, index 8 the colour
decoded from the pixel data bytes `0x82, 0x28`. -/
def overlapBitmap : List Nat :=
  [0x42, 0x4D, 66, 0, 0, 0, 0, 0, 0, 0, 54, 0, 0, 0,
   40, 0, 0, 0, 2, 0, 0, 0, 2, 0, 0, 0, 1, 0, 24, 0,
   0, 0, 0, 0, 0, 0, 0, 0, 0, 0, 0, 0, 0, 0, 0, 0, 0, 0, 0, 0, 0, 0, 0, 0,
   82, 32, 16, 0, 0, 16,
   0, 0, 16, 82, 32, 16]

/-- The 2x2 sample texture with the two bytes of palette entry 0 (offsets 26 and
27) changed from `0x00, 0x00` to `0xE0, 0x03`. -/
def sampleTextureEntry0 : List Nat :=
  texHeader 2 2 ++ [0x01, 0x11] ++ [0xE0, 0x03, 0xFF, 0x7F] ++ List.replicate 28 0

/-- Stray memory that holds zero bytes only. -/
def zeroStray : Stray :=
  { index := fun _ => 0, color := fun _ => { r := 0, g := 0, b := 0 } }

/-- Stray memory in which every byte past `pixelIndices` is 200 and the bytes at
each place past `palette` are 1, 2, 3. -/
def sampleStray : Stray :=
  { index := fun _ => 200, color := fun _ => { r := 1, g := 2, b := 3 } }

/-- The 63 bytes of the bitmap that `convertFile` writes for the 3x1 stream
`oddTexture` when the stray memory is `sampleStray`: the indices 1 and 2 have
black palette entries, and the third pixel, whose index is read past the end
of `pixelIndices`, has the stray colour 1, 2, 3. -/
def oddBitmap : List Nat :=
  [0x42, 0x4D, 63, 0, 0, 0, 0, 0, 0, 0, 54, 0, 0, 0,
   40, 0, 0, 0, 3, 0, 0, 0, 1, 0, 0, 0, 1, 0, 24, 0,
   0, 0, 0, 0, 0, 0, 0, 0, 0, 0, 0, 0, 0, 0, 0, 0, 0, 0, 0, 0, 0, 0, 0, 0,
   0, 0, 0, 0, 0, 0, 1, 2, 3]


theorem shiftRight10_and_31 (p : Nat) : (p >>> 10) &&& 31 = p / 1024 % 32 := by
  rw [Nat.shiftRight_eq_div_pow]
  exact Nat.and_pow_two_sub_one_eq_mod _ 5

theorem shiftRight5_and_31 (p : Nat) : (p >>> 5) &&& 31 = p / 32 % 32 := by
  rw [Nat.shiftRight_eq_div_pow]
  exact Nat.and_pow_two_sub_one_eq_mod _ 5

theorem and_31 (p : Nat) : p &&& 31 = p % 32 :=
  Nat.and_pow_two_sub_one_eq_mod p 5

theorem scale_exact (v : Nat) (h : v < 32) : (v % 256 * 255 / 31) % 256 = v * 255 / 31 := by
  have e : v % 256 = v := Nat.mod_eq_of_lt (by omega)
  rw [e]
  apply Nat.mod_eq_of_lt
  omega

theorem decodeRGB555_eq (p : Nat) :
    decodeRGB555 p =
      { r := p / 1024 % 32 * 255 / 31, g := p / 32 % 32 * 255 / 31, b := p % 32 * 255 / 31 } := by
  simp only [decodeRGB555]
  rw [shiftRight10_and_31, shiftRight5_and_31, and_31]
  rw [scale_exact _ (Nat.mod_lt _ (by decide)), scale_exact _ (Nat.mod_lt _ (by decide)),
    scale_exact _ (Nat.mod_lt _ (by decide))]

theorem xor_bit15_mod (p : Nat) : (p ^^^ 32768) % 32768 = p % 32768 := by
  apply Nat.eq_of_testBit_eq
  intro i
  have e : (32768 : Nat) = 2 ^ 15 := by norm_num
  rw [e, Nat.testBit_mod_two_pow, Nat.testBit_mod_two_pow, Nat.testBit_xor, Nat.testBit_two_pow]
  by_cases h : i < 15
  · have : ¬ (15 = i) := by omega
    simp [h, this]
  · simp [h]

theorem decodeRGB555_mod (p : Nat) : decodeRGB555 (p % 32768) = decodeRGB555 p := by
  have h1 := decodeRGB555_eq (p % 32768)
  have h2 := decodeRGB555_eq p
  rw [h1, h2, Color.mk.injEq]
  refine ⟨?_, ?_, ?_⟩ <;> omega


theorem unpack_pack_byte : ∀ lo < 16, ∀ hi < 16,
    (((hi <<< 4) ||| lo) &&& 0x0F) % 256 = lo ∧ ((((hi <<< 4) ||| lo) >>> 4) &&& 0x0F) % 256 = hi := by
  decide

theorem unpack_pack_aux : ∀ (n : Nat) (l : List Nat), l.length = 2 * n → (∀ i ∈ l, i < 16) →
    unpackPixels (specPackNibbles l) = l := by
  intro n
  induction n with
  | zero =>
    intro l hl _
    have : l = [] := List.length_eq_zero.mp (by omega)
    subst this
    rfl
  | succ n ih =>
    intro l hl h4
    match l, hl, h4 with
    | lo :: hi :: rest, hl, h4 =>
      have hlo : lo < 16 := h4 lo (by simp)
      have hhi : hi < 16 := h4 hi (by simp)
      have hrest : unpackPixels (specPackNibbles rest) = rest :=
        ih rest (by simp at hl; omega) (fun i hi => h4 i (by simp [hi]))
      have hb := unpack_pack_byte lo hlo hi hhi
      simp only [specPackNibbles, unpackPixels, hb.1, hb.2, hrest]
    | [], hl, _ => simp at hl
    | [_], hl, _ => simp at hl; omega


theorem le32_storeInto (l : List Nat) : le32 (storeInto [0, 0, 0, 0] (l.take 4)) = le32 l := by
  rcases l with _ | ⟨a, _ | ⟨b, _ | ⟨c, _ | ⟨d, m⟩⟩⟩⟩ <;> simp [storeInto, le32]

theorem read_good_full (bytes : List Nat) (pos n : Nat) (h : n ≤ bytes.length - pos) :
    IfStream.read ⟨bytes, pos, false, false⟩ n =
      ((bytes.drop pos).take n, ⟨bytes, pos + n, false, false⟩) := by
  have c : ¬ (((bytes.drop pos).take n).length < n) := by
    rw [List.length_take, List.length_drop, Nat.min_def]; split <;> omega
  simp only [IfStream.read, IfStream.good, Bool.not_false, Bool.and_self, if_true, c, if_false]

theorem read_good_short (bytes : List Nat) (pos n : Nat) (h : bytes.length - pos < n) :
    IfStream.read ⟨bytes, pos, false, false⟩ n =
      (bytes.drop pos, ⟨bytes, pos + (bytes.length - pos), true, true⟩) := by
  have c3 : (bytes.drop pos).take n = bytes.drop pos :=
    List.take_of_length_le (by rw [List.length_drop]; omega)
  have c : ((bytes.drop pos).take n).length < n := by
    rw [c3, List.length_drop]; exact h
  simp only [IfStream.read, IfStream.good, Bool.not_false, Bool.and_self, if_true, c]
  rw [c3, List.length_drop]

theorem read_failed (bytes : List Nat) (pos : Nat) (e : Bool) (n : Nat) :
    IfStream.read ⟨bytes, pos, e, true⟩ n = ([], ⟨bytes, pos, e, true⟩) := by
  simp [IfStream.read, IfStream.good]

theorem readDimensions_fst (bytes : List Nat) :
    (readDimensions (IfStream.openOn bytes)).1 = (specInt32At bytes 8, specInt32At bytes 12) := by
  have h8 := le32_storeInto (bytes.drop 8)
  have h12 := le32_storeInto (bytes.drop 12)
  have h0 : le32 (storeInto [0, 0, 0, 0] []) = le32 [] := rfl
  simp only [readDimensions, IfStream.openOn, IfStream.seekgBeg, specInt32At, int32OfBytes,
    Bool.false_eq_true, if_false]
  by_cases h : bytes.length < 12
  · have e : bytes.drop 12 = [] := List.drop_eq_nil_of_le (by omega)
    have t : (bytes.drop 8).take 4 = bytes.drop 8 :=
      List.take_of_length_le (by rw [List.length_drop]; omega)
    rw [t] at h8
    simp only [read_good_short bytes 8 4 (by omega), read_failed, h8, e, h0]
  · by_cases h' : bytes.length < 16
    · have t : (bytes.drop 12).take 4 = bytes.drop 12 :=
        List.take_of_length_le (by rw [List.length_drop]; omega)
      rw [t] at h12
      simp only [read_good_full bytes 8 4 (by omega), read_good_short bytes 12 4 (by omega), h8, h12]
    · simp only [read_good_full bytes 8 4 (by omega), read_good_full bytes 12 4 (by omega), h8, h12]

theorem readDimensions_snd_good (bytes : List Nat) (h : 16 ≤ bytes.length) :
    (readDimensions (IfStream.openOn bytes)).2 = ⟨bytes, 16, false, false⟩ := by
  simp only [readDimensions, IfStream.openOn, IfStream.seekgBeg, Bool.false_eq_true, if_false,
    read_good_full bytes 8 4 (by omega), read_good_full bytes 12 4 (by omega)]

theorem readDimensions_snd_failed (bytes : List Nat) (h : bytes.length < 16) :
    ∃ pos e, (readDimensions (IfStream.openOn bytes)).2 = ⟨bytes, pos, e, true⟩ := by
  by_cases h' : bytes.length < 12
  · refine ⟨8 + (bytes.length - 8), true, ?_⟩
    simp only [readDimensions, IfStream.openOn, IfStream.seekgBeg, Bool.false_eq_true, if_false,
      read_good_short bytes 8 4 (by omega), read_failed]
  · refine ⟨12 + (bytes.length - 12), true, ?_⟩
    simp only [readDimensions, IfStream.openOn, IfStream.seekgBeg, Bool.false_eq_true, if_false,
      read_good_full bytes 8 4 (by omega), read_good_short bytes 12 4 (by omega)]

theorem wrapInt32_of_range (x : Int) (h0 : -2147483648 ≤ x) (h1 : x < 2147483648) :
    wrapInt32 x = x := by
  unfold wrapInt32
  omega

theorem mul_le_of_dims (a b : Nat) (ha : a ≤ 4096) (hb : b ≤ 4096) : a * b ≤ 16777216 :=
  Nat.mul_le_mul ha hb

/-- Valid dimensions, as natural numbers. -/
theorem dims_toNat (w h : Int) (hv : invalidDimensions w h = false) :
    ∃ W H : Nat, w = (W : Int) ∧ h = (H : Int) ∧ 0 < W ∧ W ≤ 4096 ∧ 0 < H ∧ H ≤ 4096 := by
  simp only [invalidDimensions, Bool.or_eq_false_iff, decide_eq_false_iff_not] at hv
  obtain ⟨⟨⟨h1, h2⟩, h3⟩, h4⟩ := hv
  refine ⟨w.toNat, h.toNat, ?_, ?_, ?_, ?_, ?_, ?_⟩ <;> omega

theorem wrapInt32_mul_dims (W H : Nat) (hW : W ≤ 4096) (hH : H ≤ 4096) :
    wrapInt32 ((W : Int) * (H : Int)) = ((W * H : Nat) : Int) := by
  have := mul_le_of_dims W H hW hH
  rw [← Int.ofNat_mul]
  exact wrapInt32_of_range _ (by omega) (by omega)

theorem dataSizeOf_dims (W H : Nat) (hW : W ≤ 4096) (hH : H ≤ 4096) :
    dataSizeOf (W : Int) (H : Int) = W * H / 2 := by
  unfold dataSizeOf
  rw [wrapInt32_mul_dims W H hW hH, Int.tdiv_eq_ediv (by omega) (by omega)]
  omega

theorem pixelIndex_dims (W y x : Nat) (hW : W ≤ 4096) (hy : y < 4096) (hx : x < W) :
    pixelIndex (W : Int) y x = y * W + x := by
  have h1 := mul_le_of_dims y W (by omega) hW
  have e1 : wrapInt32 ((y : Int) * (W : Int)) = ((y * W : Nat) : Int) := by
    rw [← Int.ofNat_mul]
    exact wrapInt32_of_range _ (by omega) (by omega)
  have e2 : wrapInt32 (((y * W : Nat) : Int) + (x : Int)) = ((y * W + x : Nat) : Int) := by
    rw [← Int.ofNat_add]
    exact wrapInt32_of_range _ (by omega) (by omega)
  unfold pixelIndex
  rw [e1, e2, Int.toNat_ofNat]

theorem wrapInt32_mul3 (n : Nat) (h1 : n ≤ 16777216) :
    wrapInt32 ((n : Int) * 3) = ((n * 3 : Nat) : Int) := by
  have e : (n : Int) * 3 = ((n * 3 : Nat) : Int) := by push_cast; ring
  rw [e]
  apply wrapInt32_of_range <;> omega

theorem fileSize_value (m : Nat) (h : m ≤ 50331648) :
    (((54 : Int) + (m : Int)) % 4294967296).toNat = 54 + m := by
  omega

theorem fileSize_dims (W H : Nat) (hW : W ≤ 4096) (hH : H ≤ 4096) :
    (makeHeader (W : Int) (H : Int)).fileSize = 54 + W * H * 3 := by
  have h1 := mul_le_of_dims W H hW hH
  unfold makeHeader
  simp only []
  rw [wrapInt32_mul_dims W H hW hH, wrapInt32_mul3 _ h1]
  unfold sizeofBmpHeader
  rw [Nat.cast_ofNat]
  exact fileSize_value _ (by omega)

theorem storeInto_full (got : List Nat) (n : Nat) (h : got.length = n) :
    storeInto (List.replicate n 0) got = got := by
  unfold storeInto
  rw [List.drop_eq_nil_of_le (by simp [h]), List.append_nil]

theorem storeInto_replicate (got : List Nat) (n : Nat) :
    storeInto (List.replicate n 0) got = got ++ List.replicate (n - got.length) 0 := by
  unfold storeInto
  rw [List.drop_replicate]

theorem readImageData_good_full (bytes : List Nat) (pos ds : Nat) (h : ds ≤ bytes.length - 24) :
    readImageData ⟨bytes, pos, false, false⟩ ds =
      ((bytes.drop 24).take ds, ⟨bytes, 24 + ds, false, false⟩) := by
  have hl : ((bytes.drop 24).take ds).length = ds := by
    rw [List.length_take, List.length_drop]; omega
  simp only [readImageData, IfStream.seekgBeg, Bool.false_eq_true, if_false,
    read_good_full bytes 24 ds h, storeInto_full _ _ hl]

theorem readImageData_good_short (bytes : List Nat) (pos ds : Nat) (h : bytes.length - 24 < ds) :
    readImageData ⟨bytes, pos, false, false⟩ ds =
      (bytes.drop 24 ++ List.replicate (ds - (bytes.length - 24)) 0,
        ⟨bytes, 24 + (bytes.length - 24), true, true⟩) := by
  simp only [readImageData, IfStream.seekgBeg, Bool.false_eq_true, if_false,
    read_good_short bytes 24 ds h, storeInto_replicate, List.length_drop]

theorem readImageData_failed (bytes : List Nat) (pos : Nat) (e : Bool) (ds : Nat) :
    readImageData ⟨bytes, pos, e, true⟩ ds = (List.replicate ds 0, ⟨bytes, pos, false, true⟩) := by
  simp only [readImageData, IfStream.seekgBeg, if_true, read_failed, storeInto_replicate,
    List.length_nil, Nat.sub_zero, List.nil_append]

theorem get_failed (bytes : List Nat) (pos : Nat) (e : Bool) :
    IfStream.get ⟨bytes, pos, e, true⟩ = (-1, ⟨bytes, pos, e, true⟩) := by
  simp [IfStream.get, IfStream.good]

theorem get_good (bytes : List Nat) (pos : Nat) (h : pos < bytes.length) :
    IfStream.get ⟨bytes, pos, false, false⟩ =
      (((bytes.getD pos 0 : Nat) : Int), ⟨bytes, pos + 1, false, false⟩) := by
  have e : bytes.drop pos = bytes[pos] :: bytes.drop (pos + 1) := List.drop_eq_getElem_cons h
  have e2 : bytes.getD pos 0 = bytes[pos] := by
    rw [List.getD_eq_getElem?_getD, List.getElem?_eq_getElem h]; rfl
  simp only [IfStream.get, IfStream.good, Bool.not_false, Bool.and_self, if_true, e, e2]

theorem decodeRGB555_eof : decodeRGB555 (((255 <<< 8) ||| 255) % 65536) = eofColor := by
  decide

theorem readPaletteEntry_failed (bytes : List Nat) (pos : Nat) (e : Bool) :
    readPaletteEntry ⟨bytes, pos, e, true⟩ = (eofColor, ⟨bytes, pos, e, true⟩) := by
  simp only [readPaletteEntry, get_failed]
  rw [show ((-1 : Int) % 256).toNat = 255 from rfl, decodeRGB555_eof]

theorem readPaletteLoop_failed (bytes : List Nat) (pos : Nat) (e : Bool) (n : Nat) :
    readPaletteLoop n ⟨bytes, pos, e, true⟩ = (List.replicate n eofColor, ⟨bytes, pos, e, true⟩) := by
  induction n with
  | zero => rfl
  | succ n ih => simp only [readPaletteLoop, readPaletteEntry_failed, ih, List.replicate_succ]

theorem readPalette_failed (bytes : List Nat) (pos : Nat) (e : Bool) :
    (readPalette ⟨bytes, pos, e, true⟩).1 = List.replicate 16 eofColor := by
  simp only [readPalette, IfStream.seekgEnd, if_true, readPaletteLoop_failed]

theorem readPalette_short (bytes : List Nat) (pos : Nat) (h : bytes.length < 32) :
    (readPalette ⟨bytes, pos, false, false⟩).1 = List.replicate 16 eofColor := by
  have c : (bytes.length : Int) + -32 < 0 := by omega
  simp only [readPalette, IfStream.seekgEnd, Bool.false_eq_true, if_false, c, if_true,
    readPaletteLoop_failed]

theorem readPaletteEntry_good (bytes : List Nat) (pos : Nat) (h : pos + 2 ≤ bytes.length) :
    readPaletteEntry ⟨bytes, pos, false, false⟩ =
      (paletteEntryAt bytes pos, ⟨bytes, pos + 2, false, false⟩) := by
  have c : ∀ b : Nat, (((b : Nat) : Int) % 256).toNat = b % 256 := fun b => by omega
  simp only [readPaletteEntry, get_good bytes pos (by omega), get_good bytes (pos + 1) (by omega),
    c, paletteEntryAt]

theorem readPaletteLoop_length (n : Nat) (s : IfStream) : (readPaletteLoop n s).1.length = n := by
  induction n generalizing s with
  | zero => rfl
  | succ n ih => simp only [readPaletteLoop, List.length_cons, ih]

theorem readPaletteLoop_good (bytes : List Nat) (k : Nat) :
    ∀ pos, pos + 2 * k ≤ bytes.length → ∀ i, i < k →
      (readPaletteLoop k ⟨bytes, pos, false, false⟩).1[i]? = some (paletteEntryAt bytes (pos + 2 * i)) := by
  induction k with
  | zero => intro pos _ i hi; omega
  | succ k ih =>
    intro pos hp i hi
    simp only [readPaletteLoop, readPaletteEntry_good bytes pos (by omega)]
    cases i with
    | zero => simp
    | succ i =>
      rw [List.getElem?_cons_succ, ih (pos + 2) (by omega) i (by omega)]
      congr 2
      omega

theorem readPalette_good (bytes : List Nat) (pos : Nat) (h : 32 ≤ bytes.length) (i : Nat)
    (hi : i < 16) :
    (readPalette ⟨bytes, pos, false, false⟩).1[i]? =
      some (paletteEntryAt bytes (bytes.length - 32 + 2 * i)) := by
  have c : ¬ ((bytes.length : Int) + -32 < 0) := by omega
  have c2 : ((bytes.length : Int) + -32).toNat = bytes.length - 32 := by omega
  simp only [readPalette, IfStream.seekgEnd, Bool.false_eq_true, if_false, c, c2]
  exact readPaletteLoop_good bytes 16 _ (by omega) i hi

theorem paletteEntryAt_eq (bytes : List Nat) (p : Nat) (hlo : bytes.getD p 0 < 256)
    (hhi : bytes.getD (p + 1) 0 < 256) :
    paletteEntryAt bytes p = decodeRGB555 (bytes.getD p 0 + 256 * bytes.getD (p + 1) 0) := by
  unfold paletteEntryAt
  rw [Nat.mod_eq_of_lt hlo, Nat.mod_eq_of_lt hhi, Nat.shiftLeft_eq]
  have e := Nat.mul_add_lt_is_or (i := 8) (b := bytes.getD p 0) hlo (bytes.getD (p + 1) 0)
  rw [show (2 : Nat) ^ 8 = 256 from rfl] at e ⊢
  rw [Nat.mul_comm, ← e, Nat.mod_eq_of_lt (by omega), Nat.add_comm]

theorem and_15 (b : Nat) : b &&& 15 = b % 16 :=
  Nat.and_pow_two_sub_one_eq_mod b 4

theorem shiftRight4_and_15 (b : Nat) : (b >>> 4) &&& 15 = b / 16 % 16 := by
  rw [Nat.shiftRight_eq_div_pow]
  exact Nat.and_pow_two_sub_one_eq_mod _ 4

theorem unpackPixels_length (l : List Nat) : (unpackPixels l).length = 2 * l.length := by
  induction l with
  | nil => rfl
  | cons b rest ih => simp only [unpackPixels, List.length_cons, ih]; omega

theorem unpackPixels_lt (l : List Nat) : ∀ v ∈ unpackPixels l, v < 16 := by
  induction l with
  | nil => intro v hv; simp [unpackPixels] at hv
  | cons b rest ih =>
    intro v hv
    simp only [unpackPixels, List.mem_cons] at hv
    rcases hv with hv | hv | hv
    · rw [hv, and_15]; omega
    · rw [hv, shiftRight4_and_15]; omega
    · exact ih v hv

theorem flatten_uniform (k : Nat) : ∀ (l : List (List Nat)), (∀ p ∈ l, p.length = k) →
    l.flatten.length = k * l.length ∧
      ∀ i p, l[i]? = some p → ∀ j, j < k → l.flatten[k * i + j]? = p[j]? := by
  intro l
  induction l with
  | nil => intro _; exact ⟨by simp, fun i p hi => by simp at hi⟩
  | cons a rest ih =>
    intro hk
    have ha : a.length = k := hk a (List.mem_cons_self _ _)
    obtain ⟨ihl, ihg⟩ := ih (fun p hp => hk p (List.mem_cons_of_mem _ hp))
    refine ⟨?_, ?_⟩
    · rw [List.flatten_cons, List.length_append, ha, ihl, List.length_cons, Nat.mul_succ]
      omega
    · intro i p hi j hj
      rw [List.flatten_cons]
      cases i with
      | zero =>
        simp only [List.getElem?_cons_zero, Option.some.injEq] at hi
        subst hi
        rw [Nat.mul_zero, Nat.zero_add, List.getElem?_append_left (by omega)]
      | succ i =>
        rw [List.getElem?_cons_succ] at hi
        rw [List.getElem?_append_right (by rw [ha, Nat.mul_succ]; omega), ha,
          show k * (i + 1) + j - k = k * i + j by rw [Nat.mul_succ]; omega]
        exact ihg i p hi j hj

theorem putPixel_length (mem : Stray) (px : List Nat) (pal : List Color) (w : Int) (y x : Nat) :
    (putPixel mem px pal w y x).length = 3 := rfl

theorem writeRow_spec (mem : Stray) (px : List Nat) (pal : List Color) (W y : Nat) :
    (writeRow mem px pal (W : Int) y).length = 3 * W ∧
      ∀ x, x < W → ∀ j, j < 3 →
        (writeRow mem px pal (W : Int) y)[3 * x + j]? = (putPixel mem px pal (W : Int) y x)[j]? := by
  unfold writeRow
  rw [Int.toNat_ofNat]
  obtain ⟨hl, hg⟩ := flatten_uniform 3
    ((List.range W).map (putPixel mem px pal (W : Int) y)) (by
      intro p hp
      obtain ⟨x, _, hx⟩ := List.mem_map.mp hp
      rw [← hx]
      rfl)
  refine ⟨by simpa using hl, ?_⟩
  intro x hx j hj
  refine hg x _ ?_ j hj
  rw [List.getElem?_map, List.getElem?_range hx, Option.map_some']

theorem writePixels_spec (mem : Stray) (px : List Nat) (pal : List Color) (W H : Nat) :
    (writePixels mem px pal (W : Int) (H : Int)).length = 3 * W * H ∧
      ∀ y, y < H → ∀ j, j < 3 * W →
        (writePixels mem px pal (W : Int) (H : Int))[3 * W * (H - 1 - y) + j]? =
          (writeRow mem px pal (W : Int) y)[j]? := by
  unfold writePixels
  rw [Int.toNat_ofNat]
  obtain ⟨hl, hg⟩ := flatten_uniform (3 * W)
    ((List.range H).reverse.map (writeRow mem px pal (W : Int))) (by
      intro p hp
      obtain ⟨y, _, hy⟩ := List.mem_map.mp hp
      rw [← hy]
      exact (writeRow_spec mem px pal W y).1)
  refine ⟨by simpa using hl, ?_⟩
  intro y hy j hj
  refine hg (H - 1 - y) _ ?_ j hj
  rw [List.getElem?_map, List.getElem?_reverse (by simp; omega), List.length_range,
    List.getElem?_range (by omega), Option.map_some']
  rw [show H - 1 - (H - 1 - y) = y by omega]

theorem parseTexture_width (bytes : List Nat) :
    (parseTexture bytes).width = specInt32At bytes 8 := by
  show (readDimensions (IfStream.openOn bytes)).1.1 = _
  rw [readDimensions_fst]

theorem parseTexture_height (bytes : List Nat) :
    (parseTexture bytes).height = specInt32At bytes 12 := by
  show (readDimensions (IfStream.openOn bytes)).1.2 = _
  rw [readDimensions_fst]

theorem parseTexture_pixelIndices (bytes : List Nat) :
    (parseTexture bytes).pixelIndices = unpackPixels (parseTexture bytes).rawBytes := rfl

/-- The stream after stage A, and what stages B and C then read. -/
theorem parseTexture_stages (bytes : List Nat) :
    (parseTexture bytes).rawBytes =
        (readImageData (readDimensions (IfStream.openOn bytes)).2
          (dataSizeOf (parseTexture bytes).width (parseTexture bytes).height)).1
    ∧ (parseTexture bytes).palette =
        (readPalette (readImageData (readDimensions (IfStream.openOn bytes)).2
          (dataSizeOf (parseTexture bytes).width (parseTexture bytes).height)).2).1 :=
  ⟨rfl, rfl⟩

theorem parseTexture_rawBytes (bytes : List Nat) :
    (parseTexture bytes).rawBytes =
      (bytes.drop 24).take (dataSizeOf (parseTexture bytes).width (parseTexture bytes).height) ++
        List.replicate
          (dataSizeOf (parseTexture bytes).width (parseTexture bytes).height - (bytes.length - 24)) 0 := by
  rw [(parseTexture_stages bytes).1]
  generalize dataSizeOf (parseTexture bytes).width (parseTexture bytes).height = ds
  by_cases h16 : bytes.length < 16
  · obtain ⟨pos, e, hs⟩ := readDimensions_snd_failed bytes h16
    rw [hs, readImageData_failed, List.drop_eq_nil_of_le (by omega)]
    simp
    omega
  · rw [readDimensions_snd_good bytes (by omega)]
    by_cases hd : ds ≤ bytes.length - 24
    · rw [readImageData_good_full bytes 16 ds hd, Nat.sub_eq_zero_of_le hd]
      simp
    · rw [readImageData_good_short bytes 16 ds (by omega),
        List.take_of_length_le (by rw [List.length_drop]; omega)]

theorem parseTexture_rawBytes_length (bytes : List Nat) :
    (parseTexture bytes).rawBytes.length =
      dataSizeOf (parseTexture bytes).width (parseTexture bytes).height := by
  rw [parseTexture_rawBytes]
  simp only [List.length_append, List.length_take, List.length_drop, List.length_replicate]
  omega

theorem parseTexture_palette_eof (bytes : List Nat)
    (h : bytes.length < 32 ∨
      bytes.length - 24 < dataSizeOf (parseTexture bytes).width (parseTexture bytes).height) :
    (parseTexture bytes).palette = List.replicate 16 eofColor := by
  rw [(parseTexture_stages bytes).2]
  revert h
  generalize dataSizeOf (parseTexture bytes).width (parseTexture bytes).height = ds
  intro h
  by_cases h16 : bytes.length < 16
  · obtain ⟨pos, e, hs⟩ := readDimensions_snd_failed bytes h16
    rw [hs, readImageData_failed, readPalette_failed]
  · rw [readDimensions_snd_good bytes (by omega)]
    by_cases hd : ds ≤ bytes.length - 24
    · rw [readImageData_good_full bytes 16 ds hd]
      exact readPalette_short bytes _ (by omega)
    · rw [readImageData_good_short bytes 16 ds (by omega), readPalette_failed]

theorem parseTexture_palette_good (bytes : List Nat) (h32 : 32 ≤ bytes.length)
    (hd : dataSizeOf (parseTexture bytes).width (parseTexture bytes).height ≤ bytes.length - 24)
    (i : Nat) (hi : i < 16) :
    (parseTexture bytes).palette[i]? = some (paletteEntryAt bytes (bytes.length - 32 + 2 * i)) := by
  rw [(parseTexture_stages bytes).2]
  revert hd
  generalize dataSizeOf (parseTexture bytes).width (parseTexture bytes).height = ds
  intro hd
  rw [readDimensions_snd_good bytes (by omega), readImageData_good_full bytes 16 ds hd]
  exact readPalette_good bytes _ h32 i hi

theorem parseTexture_palette_length (bytes : List Nat) :
    (parseTexture bytes).palette.length = 16 := by
  rw [(parseTexture_stages bytes).2]
  exact readPaletteLoop_length 16 _

theorem toBytes_length (h : BmpHeader) : h.toBytes.length = 54 := by
  simp [BmpHeader.toBytes, bytesOfUInt16, bytesOfUInt32, bytesOfInt32]

theorem convertFile_of_unopened (mem : Stray) (fs : FileSystem) (path : String)
    (hopen : fs.contents path = none) :
    convertFile mem fs path = (Outcome.openError, fs) := by
  unfold convertFile
  rw [hopen]

theorem convertFile_of_invalid (mem : Stray) (fs : FileSystem) (path : String)
    (bytes : List Nat) (hopen : fs.contents path = some bytes)
    (hinv : invalidDimensions (parseTexture bytes).width (parseTexture bytes).height = true) :
    convertFile mem fs path = (Outcome.invalidDimensions, fs) := by
  unfold convertFile
  rw [hopen]
  show (if invalidDimensions (parseTexture bytes).width (parseTexture bytes).height = true then _
    else _) = _
  rw [hinv, if_pos rfl]

theorem convertFile_of_unwritable (mem : Stray) (fs : FileSystem) (path : String)
    (bytes : List Nat) (hopen : fs.contents path = some bytes)
    (hv : invalidDimensions (parseTexture bytes).width (parseTexture bytes).height = false)
    (hw : fs.writable (outputPathOf path) = false) :
    convertFile mem fs path = (Outcome.writeError, fs) := by
  unfold convertFile
  rw [hopen]
  show (if invalidDimensions (parseTexture bytes).width (parseTexture bytes).height = true then _
    else _) = _
  rw [hv, hw]
  rfl

/-- With valid dimensions and an output path that can be opened, the output file
is written, whatever the pixel count. -/
theorem convertFile_of_writable (mem : Stray) (fs : FileSystem) (path : String)
    (bytes : List Nat) (hopen : fs.contents path = some bytes)
    (hv : invalidDimensions (parseTexture bytes).width (parseTexture bytes).height = false)
    (hw : fs.writable (outputPathOf path) = true) :
    convertFile mem fs path =
      (Outcome.saved
          ((makeHeader (parseTexture bytes).width (parseTexture bytes).height).toBytes ++
            writePixels mem (parseTexture bytes).pixelIndices (parseTexture bytes).palette
              (parseTexture bytes).width (parseTexture bytes).height),
        fs.write (outputPathOf path)
          ((makeHeader (parseTexture bytes).width (parseTexture bytes).height).toBytes ++
            writePixels mem (parseTexture bytes).pixelIndices (parseTexture bytes).palette
              (parseTexture bytes).width (parseTexture bytes).height)) := by
  unfold convertFile
  rw [hopen]
  show (if invalidDimensions (parseTexture bytes).width (parseTexture bytes).height = true then _
    else _) = _
  rw [hv, hw]
  rfl

theorem convertFile_saved_inv (mem : Stray) (fs fs' : FileSystem) (path : String)
    (bytes out : List Nat) (hopen : fs.contents path = some bytes)
    (hsaved : convertFile mem fs path = (Outcome.saved out, fs')) :
    invalidDimensions (parseTexture bytes).width (parseTexture bytes).height = false ∧
    fs.writable (outputPathOf path) = true ∧
    out = (makeHeader (parseTexture bytes).width (parseTexture bytes).height).toBytes ++
      writePixels mem (parseTexture bytes).pixelIndices (parseTexture bytes).palette
        (parseTexture bytes).width (parseTexture bytes).height ∧
    fs' = fs.write (outputPathOf path) out := by
  cases hv : invalidDimensions (parseTexture bytes).width (parseTexture bytes).height with
  | true =>
    rw [convertFile_of_invalid mem fs path bytes hopen hv] at hsaved
    simp at hsaved
  | false =>
    cases hw : fs.writable (outputPathOf path) with
    | false =>
      rw [convertFile_of_unwritable mem fs path bytes hopen hv hw] at hsaved
      simp at hsaved
    | true =>
      rw [convertFile_of_writable mem fs path bytes hopen hv hw] at hsaved
      simp only [Prod.mk.injEq, Outcome.saved.injEq] at hsaved
      exact ⟨rfl, rfl, hsaved.1.symm, by rw [← hsaved.1]; exact hsaved.2.symm⟩

theorem convertFile_ne_invalid (mem : Stray) (fs : FileSystem) (path : String)
    (bytes : List Nat) (hopen : fs.contents path = some bytes)
    (hv : invalidDimensions (parseTexture bytes).width (parseTexture bytes).height = false)
    (fs' : FileSystem) :
    convertFile mem fs path ≠ (Outcome.invalidDimensions, fs') := by
  intro h
  cases hw : fs.writable (outputPathOf path) with
  | false =>
    rw [convertFile_of_unwritable mem fs path bytes hopen hv hw] at h
    simp at h
  | true =>
    rw [convertFile_of_writable mem fs path bytes hopen hv hw] at h
    simp at h

/-- With valid dimensions and a writable output path the output file is
written. -/
theorem convertFile_saves (mem : Stray) (fs : FileSystem) (path : String) (bytes : List Nat)
    (hopen : fs.contents path = some bytes)
    (hv : invalidDimensions (parseTexture bytes).width (parseTexture bytes).height = false)
    (hw : fs.writable (outputPathOf path) = true) :
    ∃ out, convertFile mem fs path =
      (Outcome.saved out, fs.write (outputPathOf path) out) :=
  ⟨_, convertFile_of_writable mem fs path bytes hopen hv hw⟩

theorem parseTexture_pixelIndices_length (bytes : List Nat) :
    (parseTexture bytes).pixelIndices.length =
      2 * dataSizeOf (parseTexture bytes).width (parseTexture bytes).height := by
  rw [parseTexture_pixelIndices, unpackPixels_length, parseTexture_rawBytes_length]

theorem nibble_cast (b : Nat) :
    (b &&& 0x0F) % 256 = b &&& 0xF ∧ ((b >>> 4) &&& 0x0F) % 256 = (b >>> 4) &&& 0xF := by
  have h1 := and_15 b
  have h2 := shiftRight4_and_15 b
  constructor
  · show (b &&& 15) % 256 = b &&& 15
    rw [h1]; omega
  · show ((b >>> 4) &&& 15) % 256 = (b >>> 4) &&& 15
    rw [h2]; omega

theorem unpackPixels_getElem (raw : List Nat) : ∀ k b, raw[k]? = some b →
    (unpackPixels raw)[2 * k]? = some (b &&& 0xF) ∧
    (unpackPixels raw)[2 * k + 1]? = some ((b >>> 4) &&& 0xF) := by
  induction raw with
  | nil => intro k b h; simp at h
  | cons a rest ih =>
    intro k b h
    cases k with
    | zero =>
      simp only [List.getElem?_cons_zero, Option.some.injEq] at h
      subst h
      simp only [unpackPixels, Nat.mul_zero, List.getElem?_cons_zero, Nat.zero_add,
        List.getElem?_cons_succ, (nibble_cast a).1, (nibble_cast a).2, and_self]
    | succ k =>
      rw [List.getElem?_cons_succ] at h
      have e1 : 2 * (k + 1) = (2 * k + 1) + 1 := by omega
      have e2 : 2 * (k + 1) + 1 = (2 * k + 1 + 1) + 1 := by omega
      simp only [unpackPixels]
      rw [e2, e1, List.getElem?_cons_succ, List.getElem?_cons_succ, List.getElem?_cons_succ,
        List.getElem?_cons_succ]
      exact ih k b h

theorem scale_inj (v w : Nat) (h : v * 255 / 31 = w * 255 / 31) : v = w := by
  omega

theorem findLastOf_none (c : Char) : ∀ l : List Char, c ∉ l → findLastOf c l = none := by
  intro l
  induction l with
  | nil => intro _; rfl
  | cons x rest ih =>
    intro h
    have hx : ¬ x = c := fun e => h (by rw [e]; exact List.mem_cons_self _ _)
    have hr : c ∉ rest := fun e => h (List.mem_cons_of_mem _ e)
    simp only [findLastOf, ih hr, hx, if_false]

theorem findLastOf_last (c : Char) (b : List Char) (hb : c ∉ b) :
    ∀ a : List Char, findLastOf c (a ++ c :: b) = some a.length := by
  intro a
  induction a with
  | nil => simp only [List.nil_append, findLastOf, findLastOf_none c b hb, if_true, List.length_nil]
  | cons x rest ih =>
    show (match findLastOf c (rest ++ c :: b) with
      | some i => some (i + 1)
      | none => if x = c then some 0 else none) = some (rest.length + 1)
    rw [ih]


theorem getD_lt_256 (bytes : List Nat) (hbytes : ∀ b ∈ bytes, b < 256) (k : Nat)
    (hk : k < bytes.length) : bytes.getD k 0 < 256 := by
  rw [List.getD_eq_getElem?_getD, List.getElem?_eq_getElem hk]
  exact hbytes _ (List.getElem_mem hk)


theorem getElem?_agree (b1 b2 : List Nat) (hlen : b1.length = b2.length) (P : Nat → Prop)
    (h : ∀ k, k < b1.length → P k → b1[k]? = b2[k]?) (k : Nat) (hk : P k) :
    b1[k]? = b2[k]? := by
  by_cases hlt : k < b1.length
  · exact h k hlt hk
  · rw [List.getElem?_eq_none (by omega), List.getElem?_eq_none (by omega)]

theorem specInt32At_congr (b1 b2 : List Nat) (off : Nat)
    (h : ∀ k, off ≤ k → k < off + 4 → b1[k]? = b2[k]?) :
    specInt32At b1 off = specInt32At b2 off := by
  unfold specInt32At le32
  simp only [List.getD_eq_getElem?_getD, List.getElem?_drop]
  rw [h (off + 0) (by omega) (by omega), h (off + 1) (by omega) (by omega),
    h (off + 2) (by omega) (by omega), h (off + 3) (by omega) (by omega)]

theorem take_drop_congr (b1 b2 : List Nat) (off n : Nat)
    (h : ∀ k, off ≤ k → k < off + n → b1[k]? = b2[k]?) :
    (b1.drop off).take n = (b2.drop off).take n := by
  apply List.ext_getElem?
  intro k
  by_cases hk : k < n
  · rw [List.getElem?_take_of_lt hk, List.getElem?_take_of_lt hk, List.getElem?_drop,
      List.getElem?_drop]
    exact h (off + k) (by omega) (by omega)
  · rw [List.getElem?_take_eq_none (by omega), List.getElem?_take_eq_none (by omega)]

theorem paletteEntryAt_congr (b1 b2 : List Nat) (p : Nat)
    (h : ∀ k, p ≤ k → k < p + 2 → b1[k]? = b2[k]?) :
    paletteEntryAt b1 p = paletteEntryAt b2 p := by
  unfold paletteEntryAt
  simp only [List.getD_eq_getElem?_getD]
  rw [h p (by omega) (by omega), h (p + 1) (by omega) (by omega)]

/-- The dimensions depend on bytes 8 to 15 only. -/
theorem parseTexture_dims_congr (b1 b2 : List Nat)
    (h : ∀ k, 8 ≤ k → k < 16 → b1[k]? = b2[k]?) :
    (parseTexture b1).width = (parseTexture b2).width ∧
    (parseTexture b1).height = (parseTexture b2).height := by
  rw [parseTexture_width, parseTexture_width, parseTexture_height, parseTexture_height]
  exact ⟨specInt32At_congr b1 b2 8 (fun k h1 h2 => h k h1 (by omega)),
    specInt32At_congr b1 b2 12 (fun k h1 h2 => h k (by omega) (by omega))⟩

/-- The packed buffer depends on the dimensions, the length of the stream and
the bytes from offset 24 to the end of the pixel data only. -/
theorem parseTexture_rawBytes_congr (b1 b2 : List Nat) (hlen : b1.length = b2.length)
    (hw : (parseTexture b1).width = (parseTexture b2).width)
    (hh : (parseTexture b1).height = (parseTexture b2).height)
    (h : ∀ k, 24 ≤ k →
      k < 24 + dataSizeOf (parseTexture b1).width (parseTexture b1).height → b1[k]? = b2[k]?) :
    (parseTexture b1).rawBytes = (parseTexture b2).rawBytes := by
  rw [parseTexture_rawBytes b1, parseTexture_rawBytes b2, ← hw, ← hh, ← hlen,
    take_drop_congr b1 b2 24 _ h]

/-- A palette entry depends on the dimensions, the length of the stream and its
own two bytes only. -/
theorem parseTexture_palette_congr (b1 b2 : List Nat) (hlen : b1.length = b2.length)
    (hw : (parseTexture b1).width = (parseTexture b2).width)
    (hh : (parseTexture b1).height = (parseTexture b2).height) (i : Nat)
    (h : ∀ k, b1.length - 32 + 2 * i ≤ k → k < b1.length - 32 + 2 * i + 2 →
      b1[k]? = b2[k]?) :
    (parseTexture b1).palette[i]? = (parseTexture b2).palette[i]? := by
  by_cases hi : i < 16
  · by_cases hgood : 32 ≤ b1.length ∧
        dataSizeOf (parseTexture b1).width (parseTexture b1).height ≤ b1.length - 24
    · rw [parseTexture_palette_good b1 hgood.1 hgood.2 i hi,
        parseTexture_palette_good b2 (by omega) (by rw [← hw, ← hh, ← hlen]; exact hgood.2) i hi,
        ← hlen, paletteEntryAt_congr b1 b2 _ h]
    · rw [parseTexture_palette_eof b1 (by omega),
        parseTexture_palette_eof b2 (by rw [← hw, ← hh, ← hlen]; omega)]
  · rw [List.getElem?_eq_none (by rw [parseTexture_palette_length]; omega),
      List.getElem?_eq_none (by rw [parseTexture_palette_length]; omega)]


theorem indexAt_of_getElem? (mem : Stray) (px : List Nat) (i idx : Nat)
    (h : px[i]? = some idx) : indexAt mem px i = idx := by
  unfold indexAt
  rw [h]

theorem indexAt_of_le (mem : Stray) (px : List Nat) (i : Nat) (h : px.length ≤ i) :
    indexAt mem px i = mem.index i % 256 := by
  unfold indexAt
  rw [List.getElem?_eq_none h]

theorem colorAt_of_getElem? (mem : Stray) (pal : List Color) (idx : Nat) (c : Color)
    (h : pal[idx]? = some c) : colorAt mem pal idx = c := by
  unfold colorAt
  rw [h]

/-- The pixel at column `x` of row `y` in what the pixel loop writes after a
54-byte header. -/
theorem saved_pixel (mem : Stray) (px : List Nat) (pal : List Color) (W H : Nat)
    (hW : W ≤ 4096) (hH : H ≤ 4096) (hdr : List Nat) (hhdr : hdr.length = 54)
    (x y : Nat) (hx : x < W) (hy : y < H) :
    (hdr ++ writePixels mem px pal (W : Int) (H : Int))[54 + 3 * ((H - 1 - y) * W + x)]? =
      some (resolveColor mem px pal (y * W + x)).r ∧
    (hdr ++ writePixels mem px pal (W : Int) (H : Int))[54 + 3 * ((H - 1 - y) * W + x) + 1]? =
      some (resolveColor mem px pal (y * W + x)).g ∧
    (hdr ++ writePixels mem px pal (W : Int) (H : Int))[54 + 3 * ((H - 1 - y) * W + x) + 2]? =
      some (resolveColor mem px pal (y * W + x)).b := by
  obtain ⟨_, hrows⟩ := writePixels_spec mem px pal W H
  have hrowg := hrows y hy
  obtain ⟨_, hpx⟩ := writeRow_spec mem px pal W y
  have hpg := hpx x hx
  have hput : putPixel mem px pal (W : Int) y x =
      [(resolveColor mem px pal (y * W + x)).r, (resolveColor mem px pal (y * W + x)).g,
        (resolveColor mem px pal (y * W + x)).b] := by
    unfold putPixel
    rw [pixelIndex_dims W y x hW (by omega) hx]
  refine ⟨?_, ?_, ?_⟩
  · have e : 54 + 3 * ((H - 1 - y) * W + x) = hdr.length + (3 * W * (H - 1 - y) + (3 * x + 0)) := by
      rw [hhdr]; ring
    rw [e, List.getElem?_append_right (by omega), Nat.add_sub_cancel_left,
      hrowg (3 * x + 0) (by omega), hpg 0 (by omega), hput]
    rfl
  · have e : 54 + 3 * ((H - 1 - y) * W + x) + 1 =
        hdr.length + (3 * W * (H - 1 - y) + (3 * x + 1)) := by
      rw [hhdr]; ring
    rw [e, List.getElem?_append_right (by omega), Nat.add_sub_cancel_left,
      hrowg (3 * x + 1) (by omega), hpg 1 (by omega), hput]
    rfl
  · have e : 54 + 3 * ((H - 1 - y) * W + x) + 2 =
        hdr.length + (3 * W * (H - 1 - y) + (3 * x + 2)) := by
      rw [hhdr]; ring
    rw [e, List.getElem?_append_right (by omega), Nat.add_sub_cancel_left,
      hrowg (3 * x + 2) (by omega), hpg 2 (by omega), hput]
    rfl

set_option maxRecDepth 100000 in
theorem sample_saved (mem : Stray) :
    convertFile mem (singleFile "a.tex" sampleTexture) "a.tex" =
      (Outcome.saved sampleBitmap,
        (singleFile "a.tex" sampleTexture).write "a.bmp" sampleBitmap) := by
  rfl

set_option maxRecDepth 100000 in
theorem short_saved (mem : Stray) :
    convertFile mem (singleFile "a.tex" shortTexture) "a.tex" =
      (Outcome.saved shortBitmap,
        (singleFile "a.tex" shortTexture).write "a.bmp" shortBitmap) := by
  rfl

set_option maxRecDepth 100000 in
theorem halfData_saved (mem : Stray) :
    convertFile mem (singleFile "a.tex" halfDataTexture) "a.tex" =
      (Outcome.saved halfDataBitmap,
        (singleFile "a.tex" halfDataTexture).write "a.bmp" halfDataBitmap) := by
  rfl

set_option maxRecDepth 100000 in
theorem overlap_saved (mem : Stray) :
    convertFile mem (singleFile "a.tex" overlapTexture) "a.tex" =
      (Outcome.saved overlapBitmap,
        (singleFile "a.tex" overlapTexture).write "a.bmp" overlapBitmap) := by
  rfl

set_option maxRecDepth 100000 in
theorem odd_saved :
    convertFile sampleStray (singleFile "a.tex" oddTexture) "a.tex" =
      (Outcome.saved oddBitmap, (singleFile "a.tex" oddTexture).write "a.bmp" oddBitmap) := by
  rfl

theorem resolveColor_inbounds (mem : Stray) (px : List Nat) (pal : List Color) (i idx : Nat)
    (hpx : ∀ v ∈ px, v < 16) (hpal : pal.length = 16) (h : px[i]? = some idx) :
    ∃ c, (if idx = 0 then some { r := 0, g := 0, b := 0 } else pal[idx]?) = some c ∧
      resolveColor mem px pal i = c := by
  unfold resolveColor
  rw [indexAt_of_getElem? mem px i idx h]
  by_cases h0 : idx = 0
  · exact ⟨_, by rw [if_pos h0], by rw [if_pos h0]⟩
  · have hlt : idx < pal.length := by
      rw [hpal]
      exact hpx idx (List.getElem?_mem h)
    refine ⟨pal[idx], by rw [if_neg h0, List.getElem?_eq_getElem hlt], ?_⟩
    rw [if_neg h0, colorAt_of_getElem? mem pal idx _ (List.getElem?_eq_getElem hlt)]

theorem writePixels_sample (mem : Stray) (pal : List Color) (c : Color) (h : pal[1]? = some c) :
    writePixels mem [1, 0, 1, 1] pal 2 2 =
      [c.r, c.g, c.b, c.r, c.g, c.b, c.r, c.g, c.b, 0, 0, 0] := by
  have i00 : pixelIndex 2 0 0 = 0 := by decide
  have i01 : pixelIndex 2 0 1 = 1 := by decide
  have i10 : pixelIndex 2 1 0 = 2 := by decide
  have i11 : pixelIndex 2 1 1 = 3 := by decide
  have r : List.range 2 = [0, 1] := by decide
  simp [writePixels, writeRow, putPixel, resolveColor, indexAt, colorAt, r, i00, i01, i10,
    i11, h]

theorem resolveColor_congr (mem : Stray) (px : List Nat) (pal1 pal2 : List Color)
    (h : ∀ i, i ≠ 0 → pal1[i]? = pal2[i]?) (k : Nat) :
    resolveColor mem px pal1 k = resolveColor mem px pal2 k := by
  unfold resolveColor
  by_cases h0 : indexAt mem px k = 0
  · rw [if_pos h0, if_pos h0]
  · rw [if_neg h0, if_neg h0]
    unfold colorAt
    rw [h _ h0]

/-- The pixel loop never reads palette entry 0. -/
theorem writePixels_congr (mem : Stray) (px : List Nat) (pal1 pal2 : List Color) (w h : Int)
    (hpal : ∀ i, i ≠ 0 → pal1[i]? = pal2[i]?) :
    writePixels mem px pal1 w h = writePixels mem px pal2 w h := by
  have e : putPixel mem px pal1 = putPixel mem px pal2 := by
    funext w y x
    unfold putPixel
    rw [resolveColor_congr mem px pal1 pal2 hpal]
  have e2 : writeRow mem px pal1 = writeRow mem px pal2 := by
    funext w y
    unfold writeRow
    rw [e]
  unfold writePixels
  rw [e2]

/-- How `convertFile` ends depends on the dimensions, on what the pixel loop
writes and on whether the output can be opened. -/
theorem convertFile_map_congr (mem : Stray) (fs1 fs2 : FileSystem) (p1 p2 : String)
    (b1 b2 : List Nat)
    (hopen1 : fs1.contents p1 = some b1) (hopen2 : fs2.contents p2 = some b2)
    (hw : (parseTexture b1).width = (parseTexture b2).width)
    (hh : (parseTexture b1).height = (parseTexture b2).height)
    (hp : writePixels mem (parseTexture b1).pixelIndices (parseTexture b1).palette
        (parseTexture b1).width (parseTexture b1).height =
      writePixels mem (parseTexture b2).pixelIndices (parseTexture b2).palette
        (parseTexture b2).width (parseTexture b2).height)
    (hwr : fs1.writable (outputPathOf p1) = fs2.writable (outputPathOf p2)) :
    (convertFile mem fs1 p1).1 = (convertFile mem fs2 p2).1 := by
  cases hv : invalidDimensions (parseTexture b1).width (parseTexture b1).height with
  | true =>
    rw [convertFile_of_invalid mem fs1 p1 b1 hopen1 hv,
      convertFile_of_invalid mem fs2 p2 b2 hopen2 (by rw [← hw, ← hh]; exact hv)]
  | false =>
    have hv2 : invalidDimensions (parseTexture b2).width (parseTexture b2).height = false := by
      rw [← hw, ← hh]; exact hv
    cases hw1 : fs1.writable (outputPathOf p1) with
    | false =>
      rw [convertFile_of_unwritable mem fs1 p1 b1 hopen1 hv hw1,
        convertFile_of_unwritable mem fs2 p2 b2 hopen2 hv2 (by rw [← hwr]; exact hw1)]
    | true =>
      have hw2 : fs2.writable (outputPathOf p2) = true := by rw [← hwr]; exact hw1
      rw [convertFile_of_writable mem fs1 p1 b1 hopen1 hv hw1,
        convertFile_of_writable mem fs2 p2 b2 hopen2 hv2 hw2, ← hp, ← hw, ← hh]

/-- C1: for every pixel value `p`, `decodeRGB555 p` has the channels
`((p >> 10) & 31) * 255 / 31`, `((p >> 5) & 31) * 255 / 31` and
`(p & 31) * 255 / 31`, with no wrap-around in the conversions to `uint8_t`, and
flipping bit 15 of `p` does not change the result. -/
theorem decodeRGB555_channels (p : Nat) :
    decodeRGB555 p =
      { r := ((p >>> 10) &&& 31) * 255 / 31
        g := ((p >>> 5) &&& 31) * 255 / 31
        b := (p &&& 31) * 255 / 31 }
    ∧ decodeRGB555 (p ^^^ 32768) = decodeRGB555 p := by
  refine ⟨?_, ?_⟩
  · rw [decodeRGB555_eq, shiftRight10_and_31, shiftRight5_and_31, and_31]
  · rw [← decodeRGB555_mod (p ^^^ 32768), xor_bit15_mod, decodeRGB555_mod]

/-- C2: each channel of `decodeRGB555` is monotonic non-decreasing in its own
5-bit field, whatever the other bits of the pixel are, and it is `0` when the
field is `0` and `255` when the field is `31`. -/
theorem scale_monotone (p q : Nat) :
    (((p >>> 10) &&& 31) ≤ ((q >>> 10) &&& 31) → (decodeRGB555 p).r ≤ (decodeRGB555 q).r)
    ∧ (((p >>> 5) &&& 31) ≤ ((q >>> 5) &&& 31) → (decodeRGB555 p).g ≤ (decodeRGB555 q).g)
    ∧ ((p &&& 31) ≤ (q &&& 31) → (decodeRGB555 p).b ≤ (decodeRGB555 q).b)
    ∧ (((p >>> 10) &&& 31) = 0 → (decodeRGB555 p).r = 0)
    ∧ (((p >>> 5) &&& 31) = 0 → (decodeRGB555 p).g = 0)
    ∧ ((p &&& 31) = 0 → (decodeRGB555 p).b = 0)
    ∧ (((p >>> 10) &&& 31) = 31 → (decodeRGB555 p).r = 255)
    ∧ (((p >>> 5) &&& 31) = 31 → (decodeRGB555 p).g = 255)
    ∧ ((p &&& 31) = 31 → (decodeRGB555 p).b = 255)
    ∧ decodeRGB555 0 = { r := 0, g := 0, b := 0 }
    ∧ decodeRGB555 ((31 <<< 10) ||| (31 <<< 5) ||| 31) = { r := 255, g := 255, b := 255 } := by
  have hr : ∀ n : Nat, (decodeRGB555 n).r = ((n >>> 10) &&& 31) * 255 / 31 := by
    intro n; rw [decodeRGB555_eq, shiftRight10_and_31]
  have hg : ∀ n : Nat, (decodeRGB555 n).g = ((n >>> 5) &&& 31) * 255 / 31 := by
    intro n; rw [decodeRGB555_eq, shiftRight5_and_31]
  have hb : ∀ n : Nat, (decodeRGB555 n).b = (n &&& 31) * 255 / 31 := by
    intro n; rw [decodeRGB555_eq, and_31]
  refine ⟨?_, ?_, ?_, ?_, ?_, ?_, ?_, ?_, ?_, by decide, by decide⟩
  · intro h; rw [hr, hr]; exact Nat.div_le_div_right (Nat.mul_le_mul_right 255 h)
  · intro h; rw [hg, hg]; exact Nat.div_le_div_right (Nat.mul_le_mul_right 255 h)
  · intro h; rw [hb, hb]; exact Nat.div_le_div_right (Nat.mul_le_mul_right 255 h)
  · intro h; rw [hr, h]
  · intro h; rw [hg, h]
  · intro h; rw [hb, h]
  · intro h; rw [hr, h]
  · intro h; rw [hg, h]
  · intro h; rw [hb, h]

/-- Witness of C2 at the pixels `0x1CE7` (fields 7, 7, 7) and `0x4E73` (fields 19,
19, 19), and at `0x001F`, whose blue field is 31. -/
theorem scale_monotone_witness :
    (decodeRGB555 0x1CE7).r ≤ (decodeRGB555 0x4E73).r
    ∧ (decodeRGB555 0x1CE7).g ≤ (decodeRGB555 0x4E73).g
    ∧ (decodeRGB555 0x1CE7).b ≤ (decodeRGB555 0x4E73).b
    ∧ decodeRGB555 0x1CE7 = { r := 57, g := 57, b := 57 }
    ∧ decodeRGB555 0x4E73 = { r := 156, g := 156, b := 156 }
    ∧ (decodeRGB555 0x001F).b = 255 :=
  ⟨(scale_monotone 0x1CE7 0x4E73).1 (by decide),
   (scale_monotone 0x1CE7 0x4E73).2.1 (by decide),
   (scale_monotone 0x1CE7 0x4E73).2.2.1 (by decide),
   by decide, by decide,
   (scale_monotone 0x001F 0).2.2.2.2.2.2.2.2.1 (by decide)⟩

/-- C3: unpacking the low-nibble-first packing of an even-length list of 4-bit
indices gives the list back; in particular the byte `(hi << 4) | lo` unpacks to
`[lo, hi]`, and `0x21` to `[1, 2]`. -/
theorem unpack_pack (l : List Nat) (heven : l.length % 2 = 0) (h4 : ∀ i ∈ l, i < 16) :
    unpackPixels (specPackNibbles l) = l
    ∧ (∀ lo hi, lo < 16 → hi < 16 → unpackPixels [(hi <<< 4) ||| lo] = [lo, hi])
    ∧ unpackPixels [0x21] = [1, 2] := by
  refine ⟨unpack_pack_aux (l.length / 2) l (by omega) h4, ?_, by decide⟩
  intro lo hi hlo hhi
  have hb := unpack_pack_byte lo hlo hi hhi
  simp only [unpackPixels, hb.1, hb.2]

/-- Witness of C3 at the indices `[1, 0, 15, 9]`, packed as `0x01, 0x9F`. -/
theorem unpack_pack_witness :
    [1, 0, 15, 9].length % 2 = 0 ∧ (∀ i ∈ [1, 0, 15, 9], i < 16)
    ∧ specPackNibbles [1, 0, 15, 9] = [0x01, 0x9F]
    ∧ unpackPixels (specPackNibbles [1, 0, 15, 9]) = [1, 0, 15, 9] :=
  ⟨by decide, by decide, by decide, (unpack_pack [1, 0, 15, 9] (by decide) (by decide)).1⟩

/-- C4: an input that can be opened is rejected with the invalid-dimensions
error, the file system left as it was, exactly when the width read at offset 8
or the height read at offset 12 is `≤ 0` or `> 4096`; and the invalid-dimensions
outcome never comes with a changed file system. -/
theorem convertFile_invalidDimensions_iff (mem : Stray) (fs : FileSystem) (path : String) (bytes : List Nat)
    (hopen : fs.contents path = some bytes) :
    (convertFile mem fs path = (Outcome.invalidDimensions, fs) ↔
      (specInt32At bytes 8 ≤ 0 ∨ specInt32At bytes 12 ≤ 0 ∨
        specInt32At bytes 8 > 4096 ∨ specInt32At bytes 12 > 4096))
    ∧ (∀ fs', convertFile mem fs path = (Outcome.invalidDimensions, fs') → fs' = fs) := by
  have hw := parseTexture_width bytes
  have hh := parseTexture_height bytes
  cases hv : invalidDimensions (parseTexture bytes).width (parseTexture bytes).height with
  | true =>
    have hc := convertFile_of_invalid mem fs path bytes hopen hv
    refine ⟨⟨fun _ => ?_, fun _ => hc⟩, ?_⟩
    · simp only [invalidDimensions, Bool.or_eq_true, decide_eq_true_eq, hw, hh] at hv
      omega
    · intro fs' h
      rw [hc] at h
      simp only [Prod.mk.injEq, true_and] at h
      exact h.symm
  | false =>
    have hne := convertFile_ne_invalid mem fs path bytes hopen hv
    refine ⟨⟨fun h => absurd h (hne fs), fun h => ?_⟩, fun fs' h => absurd h (hne fs')⟩
    simp only [invalidDimensions, Bool.or_eq_false_iff, decide_eq_false_iff_not, hw, hh] at hv
    omega

set_option maxRecDepth 100000 in
/-- Witness of C4: a header with width 4097 is rejected and nothing is written. -/
theorem convertFile_invalidDimensions_witness :
    (singleFile "a.tex" (texHeader 4097 2)).contents "a.tex" = some (texHeader 4097 2) ∧
    specInt32At (texHeader 4097 2) 8 = 4097 ∧
    convertFile zeroStray (singleFile "a.tex" (texHeader 4097 2)) "a.tex" =
      (Outcome.invalidDimensions, singleFile "a.tex" (texHeader 4097 2)) :=
  ⟨rfl, by decide,
    (convertFile_invalidDimensions_iff zeroStray (singleFile "a.tex" (texHeader 4097 2)) "a.tex"
      (texHeader 4097 2) rfl).1.mpr (Or.inr (Or.inr (Or.inl (by decide))))⟩

/-- C5: for every accepted input (valid dimensions, output file opened) and
every row `y` and column `x` of the image, the three output bytes at offset
`54 + 3 * ((height - 1 - y) * width + x)` are the red, green and blue channels
of the colour resolved for `pixelIndices[y * width + x]`: black for index `0`,
`palette[index]` otherwise. For the one position that an odd pixel count
leaves past the end of `pixelIndices`, the index is the stray byte found there. -/
theorem saved_pixel_bytes (mem : Stray) (fs : FileSystem) (path : String) (bytes : List Nat)
    (hopen : fs.contents path = some bytes)
    (hv : invalidDimensions (parseTexture bytes).width (parseTexture bytes).height = false)
    (hw : fs.writable (outputPathOf path) = true)
    (x y : Nat) (hx : (x : Int) < (parseTexture bytes).width)
    (hy : (y : Int) < (parseTexture bytes).height) :
    ∃ out c,
      convertFile mem fs path = (Outcome.saved out, fs.write (outputPathOf path) out) ∧
      c = resolveColor mem (parseTexture bytes).pixelIndices (parseTexture bytes).palette
        (y * (parseTexture bytes).width.toNat + x) ∧
      out[54 + 3 * (((parseTexture bytes).height.toNat - 1 - y) *
        (parseTexture bytes).width.toNat + x)]? = some c.r ∧
      out[54 + 3 * (((parseTexture bytes).height.toNat - 1 - y) *
        (parseTexture bytes).width.toNat + x) + 1]? = some c.g ∧
      out[54 + 3 * (((parseTexture bytes).height.toNat - 1 - y) *
        (parseTexture bytes).width.toNat + x) + 2]? = some c.b ∧
      (∀ idx, (parseTexture bytes).pixelIndices[y * (parseTexture bytes).width.toNat + x]?
          = some idx →
        (if idx = 0 then some { r := 0, g := 0, b := 0 }
          else (parseTexture bytes).palette[idx]?) = some c) ∧
      ((parseTexture bytes).pixelIndices.length ≤ y * (parseTexture bytes).width.toNat + x →
        c = (if mem.index (y * (parseTexture bytes).width.toNat + x) % 256 = 0 then
            { r := 0, g := 0, b := 0 }
          else colorAt mem (parseTexture bytes).palette
            (mem.index (y * (parseTexture bytes).width.toNat + x) % 256))) := by
  obtain ⟨W, H, hW, hH, _, hW', _, hH'⟩ := dims_toNat _ _ hv
  rw [hW] at hx
  rw [hH] at hy
  refine ⟨_, _, convertFile_of_writable mem fs path bytes hopen hv hw, rfl, ?_⟩
  rw [hW, hH, Int.toNat_ofNat, Int.toNat_ofNat]
  obtain ⟨h0, h1, h2⟩ := saved_pixel mem (parseTexture bytes).pixelIndices
    (parseTexture bytes).palette W H hW' hH' (makeHeader (W : Int) (H : Int)).toBytes
    (toBytes_length _) x y (by omega) (by omega)
  refine ⟨h0, h1, h2, ?_, ?_⟩
  · intro idx hidx
    obtain ⟨c, hc, hr⟩ := resolveColor_inbounds mem (parseTexture bytes).pixelIndices
      (parseTexture bytes).palette (y * W + x) idx
      (by rw [parseTexture_pixelIndices]; exact unpackPixels_lt _)
      (parseTexture_palette_length bytes) hidx
    rw [hr]
    exact hc
  · intro hle
    unfold resolveColor
    rw [indexAt_of_le mem _ _ hle]

set_option maxRecDepth 100000 in
/-- Witness of C5 on the 3x1 stream `oddTexture` with the stray memory
`sampleStray`: column 1 (index 2, black, at offset 57) and column 2, whose
index is the stray byte 200 and whose colour is the stray 1, 2, 3 at offset 60. -/
theorem saved_pixel_bytes_witness :
    (parseTexture oddTexture).pixelIndices = [1, 2] ∧
    convertFile sampleStray (singleFile "a.tex" oddTexture) "a.tex" =
      (Outcome.saved oddBitmap, (singleFile "a.tex" oddTexture).write "a.bmp" oddBitmap) ∧
    oddBitmap[54 + 3 * ((1 - 1 - 0) * 3 + 1)]? = some 0 ∧
    oddBitmap[54 + 3 * ((1 - 1 - 0) * 3 + 2)]? = some 1 ∧
    ∃ out c,
      convertFile sampleStray (singleFile "a.tex" oddTexture) "a.tex" =
        (Outcome.saved out, (singleFile "a.tex" oddTexture).write (outputPathOf "a.tex") out) ∧
      c = resolveColor sampleStray (parseTexture oddTexture).pixelIndices
        (parseTexture oddTexture).palette (0 * (parseTexture oddTexture).width.toNat + 2) ∧
      out[54 + 3 * (((parseTexture oddTexture).height.toNat - 1 - 0) *
        (parseTexture oddTexture).width.toNat + 2)]? = some c.r :=
  ⟨by decide, odd_saved, by decide, by decide,
    (saved_pixel_bytes sampleStray (singleFile "a.tex" oddTexture) "a.tex" oddTexture rfl
      (by decide) rfl 2 0 (by decide) (by decide)).imp
      (fun _ h => h.imp (fun _ h => ⟨h.1, h.2.1, h.2.2.1⟩))⟩

/-- C6: for every accepted input (valid dimensions, output file opened) the
output has exactly `54 + width * height * 3` bytes. -/
theorem saved_length (mem : Stray) (fs : FileSystem) (path : String) (bytes : List Nat)
    (hopen : fs.contents path = some bytes)
    (hv : invalidDimensions (parseTexture bytes).width (parseTexture bytes).height = false)
    (hw : fs.writable (outputPathOf path) = true) :
    ∃ out, convertFile mem fs path = (Outcome.saved out, fs.write (outputPathOf path) out) ∧
      (out.length : Int) =
        54 + (parseTexture bytes).width * (parseTexture bytes).height * 3 := by
  obtain ⟨W, H, hW, hH, _, hW', _, hH'⟩ := dims_toNat _ _ hv
  refine ⟨_, convertFile_of_writable mem fs path bytes hopen hv hw, ?_⟩
  rw [hW, hH, List.length_append, toBytes_length, (writePixels_spec mem _ _ W H).1]
  push_cast
  ring

set_option maxRecDepth 100000 in
/-- Witness of C6 on the 3x1 stream `oddTexture`: 63 bytes. -/
theorem saved_length_witness :
    (oddBitmap.length : Int) = 54 + 3 * 1 * 3 ∧
    ∃ out, convertFile sampleStray (singleFile "a.tex" oddTexture) "a.tex" =
        (Outcome.saved out, (singleFile "a.tex" oddTexture).write (outputPathOf "a.tex") out) ∧
      (out.length : Int) =
        54 + (parseTexture oddTexture).width * (parseTexture oddTexture).height * 3 :=
  ⟨by decide, saved_length sampleStray (singleFile "a.tex" oddTexture) "a.tex" oddTexture rfl
    (by decide) rfl⟩

set_option maxRecDepth 100000 in
/-- C8, counterexample: the 32-byte stream `truncatedDataTexture` has accepted
dimensions 8x8 and bytes 0 and 1 at the place of palette entry 0, which would
decode to black; the read of the 32 bytes of pixel data ends early, every later
`get()` returns `EOF`, and palette entry 0 is `(255, 255, 255)`. -/
theorem palette_tail_counterexample :
    32 ≤ truncatedDataTexture.length ∧
    (∀ b ∈ truncatedDataTexture, b < 256) ∧
    invalidDimensions (parseTexture truncatedDataTexture).width
      (parseTexture truncatedDataTexture).height = false ∧
    (parseTexture truncatedDataTexture).palette[0]? = some { r := 255, g := 255, b := 255 } ∧
    ¬ ((parseTexture truncatedDataTexture).palette[0]? =
        some (decodeRGB555
          (truncatedDataTexture.getD (truncatedDataTexture.length - 32 + 2 * 0) 0 +
            256 * truncatedDataTexture.getD (truncatedDataTexture.length - 32 + 2 * 0 + 1) 0))) := by
  decide

/-- C8, amended: for a stream of bytes of length `n ≥ 32` with accepted
dimensions that holds its pixel data in full (`24 + (width * height) / 2 ≤ n`),
palette entry `i < 16` is `decodeRGB555 (bytes[n - 32 + 2i] + 256 * bytes[n - 32 + 2i + 1])`. -/
theorem palette_from_tail (bytes : List Nat) (hbytes : ∀ b ∈ bytes, b < 256)
    (hlen : 32 ≤ bytes.length)
    (hv : invalidDimensions (parseTexture bytes).width (parseTexture bytes).height = false)
    (hdata : (24 : Int) + (parseTexture bytes).width * (parseTexture bytes).height / 2
      ≤ (bytes.length : Int))
    (i : Nat) (hi : i < 16) :
    (parseTexture bytes).palette[i]? =
      some (decodeRGB555
        (bytes.getD (bytes.length - 32 + 2 * i) 0 +
          256 * bytes.getD (bytes.length - 32 + 2 * i + 1) 0)) := by
  obtain ⟨W, H, hW, hH, _, hW', _, hH'⟩ := dims_toNat _ _ hv
  have hds : dataSizeOf (parseTexture bytes).width (parseTexture bytes).height = W * H / 2 := by
    rw [hW, hH, dataSizeOf_dims W H hW' hH']
  rw [hW, hH, ← Int.ofNat_mul] at hdata
  have hin : ∀ k, k < bytes.length → bytes.getD k 0 < 256 := by
    intro k hk
    rw [List.getD_eq_getElem?_getD, List.getElem?_eq_getElem hk]
    exact hbytes _ (List.getElem_mem hk)
  rw [parseTexture_palette_good bytes hlen (by rw [hds]; omega) i hi,
    paletteEntryAt_eq bytes _ (hin _ (by omega)) (hin _ (by omega))]

set_option maxRecDepth 100000 in
/-- Witness of C8 (amended) on the 2x2 sample texture, whose palette entry 1 is
`0x7FFF`: bytes `0xFF, 0x7F` at offsets 28 and 29 of 58. -/
theorem palette_from_tail_witness :
    (∀ b ∈ sampleTexture, b < 256) ∧ 32 ≤ sampleTexture.length ∧
    invalidDimensions (parseTexture sampleTexture).width
      (parseTexture sampleTexture).height = false ∧
    (24 : Int) + (parseTexture sampleTexture).width * (parseTexture sampleTexture).height / 2
      ≤ (sampleTexture.length : Int) ∧
    (parseTexture sampleTexture).palette[1]? =
      some (decodeRGB555
        (sampleTexture.getD (sampleTexture.length - 32 + 2 * 1) 0 +
          256 * sampleTexture.getD (sampleTexture.length - 32 + 2 * 1 + 1) 0)) :=
  ⟨by decide, by decide, by decide, by decide,
    palette_from_tail sampleTexture (by decide) (by decide) (by decide) (by decide) 1 (by decide)⟩

/-- C9, counterexample: the 16-byte stream `shortTexture` (dimensions 2x1) is
shorter than 32 bytes and is not rejected: `convertFile` saves a 60-byte bitmap. -/
theorem short_stream_counterexample :
    shortTexture.length < 32 ∧
    convertFile zeroStray (singleFile "a.tex" shortTexture) "a.tex" =
      (Outcome.saved shortBitmap,
        (singleFile "a.tex" shortTexture).write "a.bmp" shortBitmap) ∧
    ((singleFile "a.tex" shortTexture).write "a.bmp" shortBitmap).contents "a.bmp" =
      some shortBitmap :=
  ⟨by decide, short_saved zeroStray, rfl⟩

/-- C9, amended: a stream shorter than 32 bytes is rejected exactly when its
dimensions fail the check, with the invalid-dimensions error and no output.
When they pass there is no truncated-palette failure: every palette entry is
`(255, 255, 255)`, and when the output file can be opened, the output file is
written. -/
theorem short_stream_outcome (mem : Stray) (fs : FileSystem) (path : String) (bytes : List Nat)
    (hopen : fs.contents path = some bytes) (hshort : bytes.length < 32) :
    (invalidDimensions (parseTexture bytes).width (parseTexture bytes).height = true →
      convertFile mem fs path = (Outcome.invalidDimensions, fs)) ∧
    (invalidDimensions (parseTexture bytes).width (parseTexture bytes).height = false →
      (parseTexture bytes).palette = List.replicate 16 { r := 255, g := 255, b := 255 } ∧
      (∀ fs', convertFile mem fs path ≠ (Outcome.invalidDimensions, fs')) ∧
      (fs.writable (outputPathOf path) = true →
        ∃ out, convertFile mem fs path =
          (Outcome.saved out, fs.write (outputPathOf path) out))) := by
  refine ⟨fun hinv => convertFile_of_invalid mem fs path bytes hopen hinv, fun hv => ⟨?_, ?_, ?_⟩⟩
  · exact parseTexture_palette_eof bytes (Or.inl hshort)
  · exact convertFile_ne_invalid mem fs path bytes hopen hv
  · exact fun hw => convertFile_saves mem fs path bytes hopen hv hw

set_option maxRecDepth 100000 in
/-- Witness of C9 (amended) on the 16-byte stream `shortTexture`. -/
theorem short_stream_outcome_witness :
    (singleFile "a.tex" shortTexture).contents "a.tex" = some shortTexture ∧
    shortTexture.length < 32 ∧
    invalidDimensions (parseTexture shortTexture).width (parseTexture shortTexture).height
      = false ∧
    (parseTexture shortTexture).palette = List.replicate 16 { r := 255, g := 255, b := 255 } ∧
    ∃ out, convertFile zeroStray (singleFile "a.tex" shortTexture) "a.tex" =
      (Outcome.saved out,
        (singleFile "a.tex" shortTexture).write (outputPathOf "a.tex") out) :=
  ⟨rfl, by decide, by decide,
    ((short_stream_outcome zeroStray (singleFile "a.tex" shortTexture) "a.tex" shortTexture rfl
      (by decide)).2 (by decide)).1,
    ((short_stream_outcome zeroStray (singleFile "a.tex" shortTexture) "a.tex" shortTexture rfl
      (by decide)).2 (by decide)).2.2 rfl⟩

/-- C10, counterexample: the 26-byte stream `halfDataTexture` has accepted
dimensions 4x2 and only 2 of its 4 bytes of pixel data, and is not rejected:
`convertFile` saves a 78-byte bitmap. -/
theorem truncated_data_counterexample :
    invalidDimensions (parseTexture halfDataTexture).width
      (parseTexture halfDataTexture).height = false ∧
    dataSizeOf (parseTexture halfDataTexture).width (parseTexture halfDataTexture).height = 4 ∧
    (halfDataTexture.drop 24).length = 2 ∧
    convertFile zeroStray (singleFile "a.tex" halfDataTexture) "a.tex" =
      (Outcome.saved halfDataBitmap,
        (singleFile "a.tex" halfDataTexture).write "a.bmp" halfDataBitmap) ∧
    ((singleFile "a.tex" halfDataTexture).write "a.bmp" halfDataBitmap).contents "a.bmp" =
      some halfDataBitmap :=
  ⟨by decide, by decide, by decide, halfData_saved zeroStray, rfl⟩

/-- C10, amended: when the dimensions are accepted and fewer than `dataSize`
bytes are available from offset 24, there is no truncated-data failure: the
packed buffer holds the available bytes followed by zero bytes, every palette
entry is `(255, 255, 255)`, and when the output file can be opened, the output
file is written. -/
theorem truncated_data_outcome (mem : Stray) (fs : FileSystem) (path : String) (bytes : List Nat)
    (hopen : fs.contents path = some bytes)
    (hv : invalidDimensions (parseTexture bytes).width (parseTexture bytes).height = false)
    (hfew : (bytes.drop 24).length <
      dataSizeOf (parseTexture bytes).width (parseTexture bytes).height) :
    (parseTexture bytes).rawBytes =
      bytes.drop 24 ++ List.replicate
        (dataSizeOf (parseTexture bytes).width (parseTexture bytes).height -
          (bytes.drop 24).length) 0 ∧
    (parseTexture bytes).palette = List.replicate 16 { r := 255, g := 255, b := 255 } ∧
    (fs.writable (outputPathOf path) = true →
      ∃ out, convertFile mem fs path =
        (Outcome.saved out, fs.write (outputPathOf path) out)) := by
  refine ⟨?_, ?_, fun hw => convertFile_saves mem fs path bytes hopen hv hw⟩
  · rw [parseTexture_rawBytes, List.take_of_length_le (Nat.le_of_lt hfew), List.length_drop]
  · rw [List.length_drop] at hfew
    exact parseTexture_palette_eof bytes (Or.inr hfew)

set_option maxRecDepth 100000 in
/-- Witness of C10 (amended) on the 26-byte stream `halfDataTexture`. -/
theorem truncated_data_outcome_witness :
    (singleFile "a.tex" halfDataTexture).contents "a.tex" = some halfDataTexture ∧
    (halfDataTexture.drop 24).length <
      dataSizeOf (parseTexture halfDataTexture).width (parseTexture halfDataTexture).height ∧
    (parseTexture halfDataTexture).rawBytes = [0x21, 0x43, 0, 0] ∧
    (parseTexture halfDataTexture).palette =
      List.replicate 16 { r := 255, g := 255, b := 255 } ∧
    ∃ out, convertFile zeroStray (singleFile "a.tex" halfDataTexture) "a.tex" =
      (Outcome.saved out,
        (singleFile "a.tex" halfDataTexture).write (outputPathOf "a.tex") out) :=
  ⟨rfl, by decide,
    (truncated_data_outcome zeroStray (singleFile "a.tex" halfDataTexture) "a.tex" halfDataTexture rfl
      (by decide) (by decide)).1,
    (truncated_data_outcome zeroStray (singleFile "a.tex" halfDataTexture) "a.tex" halfDataTexture rfl
      (by decide) (by decide)).2.1,
    (truncated_data_outcome zeroStray (singleFile "a.tex" halfDataTexture) "a.tex" halfDataTexture rfl
      (by decide) (by decide)).2.2 rfl⟩

/-- C17: unpacking a packed buffer `raw` gives exactly `2 * raw.length` indices,
element `2k` being `raw[k] & 0xF` and element `2k + 1` being
`(raw[k] >> 4) & 0xF`, all of them at most 15; and in `convertFile` the packed
buffer has `dataSize = (width * height) / 2` bytes and `pixelIndices` is its
unpacking. -/
theorem unpackPixels_spec (raw bytes : List Nat) :
    (unpackPixels raw).length = 2 * raw.length
    ∧ (∀ k b, raw[k]? = some b →
        (unpackPixels raw)[2 * k]? = some (b &&& 0xF) ∧
        (unpackPixels raw)[2 * k + 1]? = some ((b >>> 4) &&& 0xF))
    ∧ (∀ v ∈ unpackPixels raw, v ≤ 15)
    ∧ (parseTexture bytes).rawBytes.length =
        dataSizeOf (parseTexture bytes).width (parseTexture bytes).height
    ∧ (parseTexture bytes).pixelIndices = unpackPixels (parseTexture bytes).rawBytes
    ∧ (parseTexture bytes).pixelIndices.length =
        2 * dataSizeOf (parseTexture bytes).width (parseTexture bytes).height := by
  refine ⟨unpackPixels_length raw, ?_, fun v hv => Nat.le_of_lt_succ (unpackPixels_lt raw v hv),
    parseTexture_rawBytes_length bytes, rfl, parseTexture_pixelIndices_length bytes⟩
  intro k b hk
  exact unpackPixels_getElem raw k b hk

/-- C19: for a width and a height that pass the dimension check, none of the
`int` computations of `convertFile` overflows: `width * height`,
`(width * height) / 2`, `width * height * 3`, `y * width` and `y * width + x`
for a row and column of the image, and the file size `54 + width * height * 3`
each have their exact mathematical value. -/
theorem no_overflow (w h : Int) (hv : invalidDimensions w h = false) :
    wrapInt32 (w * h) = w * h
    ∧ (dataSizeOf w h : Int) = w * h / 2
    ∧ wrapInt32 (wrapInt32 (w * h) * 3) = w * h * 3
    ∧ (∀ y x : Nat, (y : Int) < h → (x : Int) < w →
        wrapInt32 ((y : Int) * w) = (y : Int) * w ∧
        wrapInt32 (wrapInt32 ((y : Int) * w) + (x : Int)) = (y : Int) * w + (x : Int) ∧
        (pixelIndex w y x : Int) = (y : Int) * w + (x : Int))
    ∧ ((makeHeader w h).fileSize : Int) = 54 + w * h * 3 := by
  obtain ⟨W, H, hW, hH, _, hW', _, hH'⟩ := dims_toNat _ _ hv
  subst hW hH
  have hm := mul_le_of_dims W H hW' hH'
  refine ⟨wrapInt32_mul_dims W H hW' hH', ?_, ?_, ?_, ?_⟩
  · rw [dataSizeOf_dims W H hW' hH']
    push_cast
    rfl
  · rw [wrapInt32_mul_dims W H hW' hH', wrapInt32_mul3 _ hm]
    push_cast
    ring
  · intro y x hy hx
    have hy' : y < H := by omega
    have hx' : x < W := by omega
    have hyw := mul_le_of_dims y W (by omega) hW'
    have e1 : wrapInt32 ((y : Int) * (W : Int)) = (y : Int) * (W : Int) := by
      rw [← Int.ofNat_mul]
      exact wrapInt32_of_range _ (by omega) (by omega)
    refine ⟨e1, ?_, ?_⟩
    · rw [e1, ← Int.ofNat_mul, ← Int.ofNat_add]
      exact wrapInt32_of_range _ (by omega) (by omega)
    · rw [pixelIndex_dims W y x hW' (by omega) hx']
      push_cast
      rfl
  · rw [fileSize_dims W H hW' hH']
    push_cast
    ring

/-- Witness of C19 at the largest accepted dimensions, 4096 x 4096. -/
theorem no_overflow_witness :
    invalidDimensions 4096 4096 = false
    ∧ wrapInt32 (4096 * 4096) = 16777216
    ∧ (dataSizeOf 4096 4096 : Int) = 8388608
    ∧ wrapInt32 (wrapInt32 (4096 * 4096) * 3) = 50331648
    ∧ (pixelIndex 4096 4095 4095 : Int) = 16777215
    ∧ ((makeHeader 4096 4096).fileSize : Int) = 50331702 := by
  have h := no_overflow 4096 4096 (by decide)
  refine ⟨by decide, ?_, ?_, ?_, ?_, ?_⟩
  · rw [h.1]; norm_num
  · rw [h.2.1]; norm_num
  · rw [h.2.2.1]; norm_num
  · have h3 := (h.2.2.2.1 4095 4095 (by norm_num) (by norm_num)).2.2
    rw [h3]; norm_num
  · rw [h.2.2.2.2]; norm_num

/-- C20: each channel of `decodeRGB555` is strictly increasing in its 5-bit
field, and `decodeRGB555` is injective on the 15-bit values. -/
theorem decodeRGB555_injective (p q : Nat) (hp : p < 0x8000) (hq : q < 0x8000)
    (h : decodeRGB555 p = decodeRGB555 q) :
    p = q
    ∧ (∀ v w : Nat, v < w → w ≤ 31 →
        (decodeRGB555 (v <<< 10)).r < (decodeRGB555 (w <<< 10)).r ∧
        (decodeRGB555 (v <<< 5)).g < (decodeRGB555 (w <<< 5)).g ∧
        (decodeRGB555 v).b < (decodeRGB555 w).b) := by
  refine ⟨?_, ?_⟩
  · rw [decodeRGB555_eq, decodeRGB555_eq, Color.mk.injEq] at h
    obtain ⟨h1, h2, h3⟩ := h
    have a1 := scale_inj _ _ h1
    have a2 := scale_inj _ _ h2
    have a3 := scale_inj _ _ h3
    clear h1 h2 h3
    omega
  · intro v w hvw hw
    have e10 : ∀ n : Nat, n <<< 10 = n * 1024 := fun n => by rw [Nat.shiftLeft_eq]
    have e5 : ∀ n : Nat, n <<< 5 = n * 32 := fun n => by rw [Nat.shiftLeft_eq]
    refine ⟨?_, ?_, ?_⟩
    · rw [decodeRGB555_eq, decodeRGB555_eq, e10, e10]
      show v * 1024 / 1024 % 32 * 255 / 31 < w * 1024 / 1024 % 32 * 255 / 31
      omega
    · rw [decodeRGB555_eq, decodeRGB555_eq, e5, e5]
      show v * 32 / 32 % 32 * 255 / 31 < w * 32 / 32 % 32 * 255 / 31
      omega
    · rw [decodeRGB555_eq, decodeRGB555_eq]
      show v % 32 * 255 / 31 < w % 32 * 255 / 31
      omega

/-- Witness of C20 at the pixel value `0x1234`. -/
theorem decodeRGB555_injective_witness :
    0x1234 < 0x8000 ∧ decodeRGB555 0x1234 = { r := 32, g := 139, b := 164 }
    ∧ decodeRGB555 0x1234 = decodeRGB555 0x1234 ∧ 0x1234 = 0x1234 :=
  ⟨by decide, by decide, rfl,
    (decodeRGB555_injective 0x1234 0x1234 (by decide) (by decide) rfl).1⟩

/-- C14: the output path is the input path cut before its last `.` and followed
by `.bmp`, or the whole input path followed by `.bmp` when it has no `.`; and
that is the path `convertFile` writes to. -/
theorem outputPath_spec (p : String) :
    (∀ a b : List Char, p.data = a ++ '.' :: b → '.' ∉ b →
      outputPathOf p = String.mk a ++ ".bmp")
    ∧ ('.' ∉ p.data → outputPathOf p = p ++ ".bmp")
    ∧ (∀ (mem : Stray) (fs fs' : FileSystem) (out : List Nat), convertFile mem fs p = (Outcome.saved out, fs') →
        fs' = fs.write (outputPathOf p) out) := by
  refine ⟨?_, ?_, ?_⟩
  · intro a b hp hb
    unfold outputPathOf
    rw [hp, findLastOf_last '.' b hb a]
    show String.mk (List.take a.length (a ++ '.' :: b) ++ ".bmp".data) = _
    rw [List.take_left']
    rfl
    rfl
  · intro hp
    unfold outputPathOf
    rw [findLastOf_none '.' p.data hp]
    rfl
  · intro mem fs fs' out h
    cases hopen : fs.contents p with
    | none =>
      rw [convertFile_of_unopened mem fs p hopen] at h
      simp at h
    | some bytes =>
      exact (convertFile_saved_inv mem fs fs' p bytes out hopen h).2.2.2

/-- Witness of C14 on paths with two dots, with a dot in a directory name only,
and with no dot. -/
theorem outputPath_witness :
    outputPathOf "textures/wall.v2.tex" = "textures/wall.v2.bmp"
    ∧ outputPathOf "pack.d/wall" = "pack.bmp"
    ∧ outputPathOf "wall" = "wall.bmp" :=
  ⟨(outputPath_spec "textures/wall.v2.tex").1 "textures/wall.v2".data "tex".data rfl (by decide),
   (outputPath_spec "pack.d/wall").1 "pack".data "d/wall".data rfl (by decide),
   (outputPath_spec "wall").2.1 (by decide)⟩

/-- C11, counterexample: in the 40-byte stream `overlapTexture` (dimensions 2x2)
the header and pixel data end at offset 26 and the last 32 bytes start at
offset 8, and the stream is not rejected: `convertFile` saves a 66-byte bitmap
whose colours are decoded from the height and from the pixel data. -/
theorem overlap_counterexample :
    invalidDimensions (parseTexture overlapTexture).width
      (parseTexture overlapTexture).height = false ∧
    overlapTexture.length - 32 <
      24 + dataSizeOf (parseTexture overlapTexture).width (parseTexture overlapTexture).height ∧
    convertFile zeroStray (singleFile "a.tex" overlapTexture) "a.tex" =
      (Outcome.saved overlapBitmap,
        (singleFile "a.tex" overlapTexture).write "a.bmp" overlapBitmap) ∧
    ((singleFile "a.tex" overlapTexture).write "a.bmp" overlapBitmap).contents "a.bmp" =
      some overlapBitmap :=
  ⟨by decide, by decide, overlap_saved zeroStray, rfl⟩

/-- C11, amended: when the dimensions are accepted and the header and pixel
data reach into the last 32 bytes, there is no truncated-palette failure. A
stream of at least 32 bytes that holds its pixel data in full has its palette
decoded from its last 32 bytes all the same; otherwise every palette entry is
`(255, 255, 255)`. In both cases, when the output file can be opened, the
output file is written. -/
theorem overlap_outcome (mem : Stray) (fs : FileSystem) (path : String) (bytes : List Nat)
    (hbytes : ∀ b ∈ bytes, b < 256)
    (hopen : fs.contents path = some bytes)
    (hv : invalidDimensions (parseTexture bytes).width (parseTexture bytes).height = false)
    (_hoverlap : bytes.length - 32 <
      24 + dataSizeOf (parseTexture bytes).width (parseTexture bytes).height) :
    (32 ≤ bytes.length →
      24 + dataSizeOf (parseTexture bytes).width (parseTexture bytes).height ≤ bytes.length →
      ∀ i, i < 16 → (parseTexture bytes).palette[i]? =
        some (decodeRGB555 (bytes.getD (bytes.length - 32 + 2 * i) 0 +
          256 * bytes.getD (bytes.length - 32 + 2 * i + 1) 0)))
    ∧ (bytes.length < 32 ∨
        bytes.length < 24 + dataSizeOf (parseTexture bytes).width (parseTexture bytes).height →
      (parseTexture bytes).palette = List.replicate 16 { r := 255, g := 255, b := 255 })
    ∧ (fs.writable (outputPathOf path) = true →
        ∃ out, convertFile mem fs path =
          (Outcome.saved out, fs.write (outputPathOf path) out)) := by
  refine ⟨fun h32 hdata i hi => ?_, fun h => ?_,
    fun hw => convertFile_saves mem fs path bytes hopen hv hw⟩
  · rw [parseTexture_palette_good bytes h32 (by omega) i hi,
      paletteEntryAt_eq bytes _ (getD_lt_256 bytes hbytes _ (by omega))
        (getD_lt_256 bytes hbytes _ (by omega))]
  · exact parseTexture_palette_eof bytes (by omega)

set_option maxRecDepth 100000 in
/-- Witness of C11 (amended) on `overlapTexture`: palette entry 8 is decoded from
the pixel data bytes at offsets 24 and 25, and the output is written. -/
theorem overlap_outcome_witness :
    (∀ b ∈ overlapTexture, b < 256) ∧
    (singleFile "a.tex" overlapTexture).contents "a.tex" = some overlapTexture ∧
    overlapTexture.length - 32 <
      24 + dataSizeOf (parseTexture overlapTexture).width (parseTexture overlapTexture).height ∧
    (parseTexture overlapTexture).palette[8]? =
      some (decodeRGB555 (overlapTexture.getD (overlapTexture.length - 32 + 2 * 8) 0 +
        256 * overlapTexture.getD (overlapTexture.length - 32 + 2 * 8 + 1) 0)) ∧
    decodeRGB555 (0x82 + 256 * 0x28) = { r := 82, g := 32, b := 16 } ∧
    ∃ out, convertFile zeroStray (singleFile "a.tex" overlapTexture) "a.tex" =
      (Outcome.saved out,
        (singleFile "a.tex" overlapTexture).write (outputPathOf "a.tex") out) :=
  ⟨by decide, rfl, by decide,
    (overlap_outcome zeroStray (singleFile "a.tex" overlapTexture) "a.tex" overlapTexture
      (by decide) rfl
      (by decide) (by decide)).1 (by decide) (by decide) 8 (by decide),
    by decide,
    (overlap_outcome zeroStray (singleFile "a.tex" overlapTexture) "a.tex" overlapTexture
      (by decide) rfl
      (by decide) (by decide)).2.2 rfl⟩

set_option maxRecDepth 100000 in
/-- C12, counterexample: for the 2x2 sample texture (indices `[1, 0, 1, 1]`,
palette entry 1 `0x7FFF`) the colours written after the header are white,
white, white, black, not white, black, white, white. -/
theorem sample_raster_counterexample :
    (parseTexture sampleTexture).pixelIndices = [1, 0, 1, 1] ∧
    (parseTexture sampleTexture).palette[1]? = some (decodeRGB555 0x7FFF) ∧
    convertFile zeroStray (singleFile "a.tex" sampleTexture) "a.tex" =
      (Outcome.saved sampleBitmap,
        (singleFile "a.tex" sampleTexture).write "a.bmp" sampleBitmap) ∧
    sampleBitmap.drop 54 = [255, 255, 255, 255, 255, 255, 255, 255, 255, 0, 0, 0] ∧
    sampleBitmap.drop 54 ≠ [255, 255, 255, 0, 0, 0, 255, 255, 255, 255, 255, 255] :=
  ⟨by decide, by decide, sample_saved zeroStray, by decide, by decide⟩

set_option maxRecDepth 100000 in
/-- C12, amended: for every 2x2 texture whose packed bytes are `0x01, 0x11` (the
indices `[1, 0, 1, 1]`) and whose palette entry 1 is `0x7FFF`, whatever the
other palette entries and the unused header bytes, the pixel colours written
after the header are, in order: white and white (source row 1, the bottom row,
written first), then white and black (source row 0). -/
theorem sample_raster (mem : Stray) (fs : FileSystem) (path : String) (pad0 pad1 pal : List Nat)
    (h0 : pad0.length = 8) (h1 : pad1.length = 8) (hpal : pal.length = 32)
    (hlo : pal.getD 2 0 = 0xFF) (hhi : pal.getD 3 0 = 0x7F)
    (hopen : fs.contents path =
      some (pad0 ++ bytesOfUInt32 2 ++ bytesOfUInt32 2 ++ pad1 ++ [0x01, 0x11] ++ pal))
    (hw : fs.writable (outputPathOf path) = true) :
    convertFile mem fs path =
      (Outcome.saved sampleBitmap, fs.write (outputPathOf path) sampleBitmap)
    ∧ sampleBitmap.drop 54 = [255, 255, 255, 255, 255, 255, 255, 255, 255, 0, 0, 0] := by
  refine ⟨?_, by decide⟩
  rcases pad0 with _ | ⟨a0, _ | ⟨a1, _ | ⟨a2, _ | ⟨a3, _ | ⟨a4, _ | ⟨a5, _ | ⟨a6, _ | ⟨a7, _ | ⟨a8, t⟩⟩⟩⟩⟩⟩⟩⟩⟩ <;>
    simp at h0
  rcases pad1 with _ | ⟨b0, _ | ⟨b1, _ | ⟨b2, _ | ⟨b3, _ | ⟨b4, _ | ⟨b5, _ | ⟨b6, _ | ⟨b7, _ | ⟨b8, t⟩⟩⟩⟩⟩⟩⟩⟩⟩ <;>
    simp at h1
  generalize hb : ([a0, a1, a2, a3, a4, a5, a6, a7] ++ bytesOfUInt32 2 ++ bytesOfUInt32 2 ++
    [b0, b1, b2, b3, b4, b5, b6, b7] ++ [0x01, 0x11] ++ pal) = bytes at hopen
  have hb' : bytes = a0 :: a1 :: a2 :: a3 :: a4 :: a5 :: a6 :: a7 :: 2 :: 0 :: 0 :: 0 ::
      2 :: 0 :: 0 :: 0 :: b0 :: b1 :: b2 :: b3 :: b4 :: b5 :: b6 :: b7 :: 1 :: 17 :: pal := by
    rw [← hb]; simp [bytesOfUInt32]
  have hlen : bytes.length = 58 := by rw [hb']; simp [hpal]
  have hwid : (parseTexture bytes).width = 2 := by
    rw [parseTexture_width, hb']; simp [specInt32At, le32, wrapInt32]
  have hhei : (parseTexture bytes).height = 2 := by
    rw [parseTexture_height, hb']; simp [specInt32At, le32, wrapInt32]
  have hds : dataSizeOf 2 2 = 2 := by decide
  have hraw : (parseTexture bytes).rawBytes = [1, 17] := by
    rw [parseTexture_rawBytes, hwid, hhei, hds, hlen, hb']; simp
  have hpx : (parseTexture bytes).pixelIndices = [1, 0, 1, 1] := by
    rw [parseTexture_pixelIndices, hraw]; decide
  have hp1 : (parseTexture bytes).palette[1]? = some { r := 255, g := 255, b := 255 } := by
    rw [parseTexture_palette_good bytes (by omega) (by rw [hwid, hhei, hds, hlen]; decide) 1
      (by decide), hlen]
    unfold paletteEntryAt
    have e1 : bytes.getD (58 - 32 + 2 * 1) 0 = pal.getD 2 0 := by rw [hb']; simp
    have e2 : bytes.getD (58 - 32 + 2 * 1 + 1) 0 = pal.getD 3 0 := by rw [hb']; simp
    rw [e1, e2, hlo, hhi]
    decide
  have hv : invalidDimensions (parseTexture bytes).width (parseTexture bytes).height = false := by
    rw [hwid, hhei]; decide
  have hp := writePixels_sample mem (parseTexture bytes).palette _ hp1
  rw [← hpx] at hp
  rw [convertFile_of_writable mem fs path bytes hopen hv hw, hwid, hhei, hp]
  have hout : (makeHeader 2 2).toBytes ++ [255, 255, 255, 255, 255, 255, 255, 255, 255, 0, 0, 0]
      = sampleBitmap := by decide
  rw [hout]

set_option maxRecDepth 100000 in
/-- Witness of C12 (amended) on a 2x2 texture whose unused header bytes are 5 and
whose palette bytes other than those of entry 1 are 9. -/
theorem sample_raster_witness :
    convertFile zeroStray
      (singleFile "b.tex"
        (List.replicate 8 5 ++ bytesOfUInt32 2 ++ bytesOfUInt32 2 ++ List.replicate 8 5 ++
          [0x01, 0x11] ++ ([9, 9, 0xFF, 0x7F] ++ List.replicate 28 9))) "b.tex" =
      (Outcome.saved sampleBitmap,
        (singleFile "b.tex"
          (List.replicate 8 5 ++ bytesOfUInt32 2 ++ bytesOfUInt32 2 ++ List.replicate 8 5 ++
            [0x01, 0x11] ++ ([9, 9, 0xFF, 0x7F] ++ List.replicate 28 9))).write
          (outputPathOf "b.tex") sampleBitmap) :=
  (sample_raster zeroStray _ "b.tex" (List.replicate 8 5) (List.replicate 8 5)
    ([9, 9, 0xFF, 0x7F] ++ List.replicate 28 9) (by decide) (by decide) (by decide)
    (by decide) (by decide) rfl rfl).1

/-- C16: two streams of the same length, at least 56 bytes, that agree on bytes 8
to 15 and on every byte from offset 24 are parsed to the same texture, and
`convertFile` ends the same way on both: the same error or the same output
bytes. -/
theorem header_padding_ignored (mem : Stray) (fs1 fs2 : FileSystem) (path : String)
    (b1 b2 : List Nat)
    (hopen1 : fs1.contents path = some b1) (hopen2 : fs2.contents path = some b2)
    (hwr : fs1.writable (outputPathOf path) = fs2.writable (outputPathOf path))
    (hlen : b1.length = b2.length) (h56 : 56 ≤ b1.length)
    (hagree : ∀ k, k < b1.length → ((8 ≤ k ∧ k < 16) ∨ 24 ≤ k) → b1[k]? = b2[k]?) :
    parseTexture b1 = parseTexture b2 ∧
    (convertFile mem fs1 path).1 = (convertFile mem fs2 path).1 := by
  have hag := getElem?_agree b1 b2 hlen _ hagree
  obtain ⟨hw, hh⟩ := parseTexture_dims_congr b1 b2 (fun k h1 h2 => hag k (Or.inl ⟨h1, h2⟩))
  have hraw := parseTexture_rawBytes_congr b1 b2 hlen hw hh (fun k h1 _ => hag k (Or.inr h1))
  have hpal : (parseTexture b1).palette = (parseTexture b2).palette := by
    apply List.ext_getElem?
    intro i
    exact parseTexture_palette_congr b1 b2 hlen hw hh i (fun k h1 _ => hag k (Or.inr (by omega)))
  have hpx : (parseTexture b1).pixelIndices = (parseTexture b2).pixelIndices := by
    rw [parseTexture_pixelIndices, parseTexture_pixelIndices, hraw]
  have ht : parseTexture b1 = parseTexture b2 := by
    cases h1 : parseTexture b1
    cases h2 : parseTexture b2
    rw [h1] at hw hh hraw hpal hpx
    rw [h2] at hw hh hraw hpal hpx
    simp only at hw hh hraw hpal hpx
    rw [hw, hh, hraw, hpal, hpx]
  refine ⟨ht, convertFile_map_congr mem fs1 fs2 path path b1 b2 hopen1 hopen2 hw hh ?_ hwr⟩
  rw [ht]

set_option maxRecDepth 100000 in
/-- Witness of C16: the 58-byte sample texture and the same stream with its
bytes 0 to 7 and 16 to 23 set to 5 give the same bitmap. -/
theorem header_padding_ignored_witness :
    (List.replicate 8 5 ++ bytesOfUInt32 2 ++ bytesOfUInt32 2 ++ List.replicate 8 5 ++
      sampleTexture.drop 24).length = sampleTexture.length ∧
    (convertFile zeroStray (singleFile "a.tex" sampleTexture) "a.tex").1 =
      Outcome.saved sampleBitmap ∧
    (convertFile zeroStray (singleFile "a.tex" sampleTexture) "a.tex").1 =
      (convertFile zeroStray (singleFile "a.tex"
        (List.replicate 8 5 ++ bytesOfUInt32 2 ++ bytesOfUInt32 2 ++ List.replicate 8 5 ++
          sampleTexture.drop 24)) "a.tex").1 :=
  ⟨by decide, by rw [sample_saved zeroStray],
    (header_padding_ignored zeroStray (singleFile "a.tex" sampleTexture)
      (singleFile "a.tex"
        (List.replicate 8 5 ++ bytesOfUInt32 2 ++ bytesOfUInt32 2 ++ List.replicate 8 5 ++
          sampleTexture.drop 24)) "a.tex" sampleTexture _ rfl rfl rfl (by decide) (by decide)
      (by decide)).2⟩

/-- C13: palette entry 0 is never looked up. When a stream whose palette region
lies after its pixel data is accepted, a stream that differs from it only in the
two bytes of palette entry 0 is accepted with the same output bytes (if its
output file can be opened), and every pixel whose index is 0 is written as the
three bytes 0, 0, 0. -/
theorem palette_entry0_unused (mem : Stray) (fs1 fs1' fs2 : FileSystem) (p1 p2 : String)
    (b1 b2 out : List Nat)
    (hopen1 : fs1.contents p1 = some b1) (hopen2 : fs2.contents p2 = some b2)
    (hlen : b1.length = b2.length)
    (hsame : ∀ k, k < b1.length → (k ≠ b1.length - 32 ∧ k ≠ b1.length - 31) → b1[k]? = b2[k]?)
    (hapart : 24 + dataSizeOf (parseTexture b1).width (parseTexture b1).height + 32
      ≤ b1.length)
    (hsaved : convertFile mem fs1 p1 = (Outcome.saved out, fs1'))
    (hw2 : fs2.writable (outputPathOf p2) = true) :
    convertFile mem fs2 p2 = (Outcome.saved out, fs2.write (outputPathOf p2) out)
    ∧ ∀ x y : Nat, (x : Int) < (parseTexture b1).width → (y : Int) < (parseTexture b1).height →
        (parseTexture b1).pixelIndices[y * (parseTexture b1).width.toNat + x]? = some 0 →
        out[54 + 3 * (((parseTexture b1).height.toNat - 1 - y) *
          (parseTexture b1).width.toNat + x)]? = some 0 ∧
        out[54 + 3 * (((parseTexture b1).height.toNat - 1 - y) *
          (parseTexture b1).width.toNat + x) + 1]? = some 0 ∧
        out[54 + 3 * (((parseTexture b1).height.toNat - 1 - y) *
          (parseTexture b1).width.toNat + x) + 2]? = some 0 := by
  obtain ⟨hv, _, hout, _⟩ := convertFile_saved_inv mem fs1 fs1' p1 b1 out hopen1 hsaved
  have hag := getElem?_agree b1 b2 hlen _ hsame
  obtain ⟨hw, hh⟩ := parseTexture_dims_congr b1 b2
    (fun k h1 h2 => hag k ⟨by omega, by omega⟩)
  have hraw := parseTexture_rawBytes_congr b1 b2 hlen hw hh
    (fun k h1 h2 => hag k ⟨by omega, by omega⟩)
  have hpx : (parseTexture b1).pixelIndices = (parseTexture b2).pixelIndices := by
    rw [parseTexture_pixelIndices, parseTexture_pixelIndices, hraw]
  have hpal : ∀ i, i ≠ 0 → (parseTexture b1).palette[i]? = (parseTexture b2).palette[i]? :=
    fun i hi => parseTexture_palette_congr b1 b2 hlen hw hh i
      (fun k h1 h2 => hag k ⟨by omega, by omega⟩)
  have hv2 : invalidDimensions (parseTexture b2).width (parseTexture b2).height = false := by
    rw [← hw, ← hh]; exact hv
  refine ⟨?_, ?_⟩
  · rw [convertFile_of_writable mem fs2 p2 b2 hopen2 hv2 hw2, ← hpx, ← hw, ← hh,
      ← writePixels_congr mem _ _ _ _ _ hpal, ← hout]
  · intro x y hx hy hidx
    obtain ⟨W, H, hW, hH, _, hW', _, hH'⟩ := dims_toNat _ _ hv
    rw [hW] at hx
    rw [hH] at hy
    rw [hW, Int.toNat_ofNat] at hidx
    rw [hout, hW, hH, Int.toNat_ofNat, Int.toNat_ofNat]
    obtain ⟨h0, h1, h2⟩ := saved_pixel mem (parseTexture b1).pixelIndices
      (parseTexture b1).palette W H hW' hH'
      (makeHeader (W : Int) (H : Int)).toBytes (toBytes_length _) x y (by omega) (by omega)
    have hc : resolveColor mem (parseTexture b1).pixelIndices (parseTexture b1).palette
        (y * W + x) = { r := 0, g := 0, b := 0 } := by
      unfold resolveColor
      rw [indexAt_of_getElem? mem _ _ 0 hidx, if_pos rfl]
    rw [hc] at h0 h1 h2
    exact ⟨h0, h1, h2⟩

set_option maxRecDepth 100000 in
/-- Witness of C13: the sample texture and `sampleTextureEntry0`, whose palette
entry 0 decodes to green instead of black, give the same bitmap, and the pixel
at column 1 of row 0 (index 0) is black. -/
theorem palette_entry0_unused_witness :
    (parseTexture sampleTexture).palette[0]? = some { r := 0, g := 0, b := 0 } ∧
    (parseTexture sampleTextureEntry0).palette[0]? = some { r := 0, g := 255, b := 0 } ∧
    convertFile zeroStray (singleFile "b.tex" sampleTextureEntry0) "b.tex" =
      (Outcome.saved sampleBitmap,
        (singleFile "b.tex" sampleTextureEntry0).write (outputPathOf "b.tex") sampleBitmap) ∧
    (parseTexture sampleTexture).pixelIndices[0 * 2 + 1]? = some 0 ∧
    sampleBitmap[54 + 3 * ((2 - 1 - 0) * 2 + 1)]? = some 0 :=
  ⟨by decide, by decide,
    (palette_entry0_unused zeroStray (singleFile "a.tex" sampleTexture) _
      (singleFile "b.tex" sampleTextureEntry0) "a.tex" "b.tex" sampleTexture
      sampleTextureEntry0 sampleBitmap rfl rfl (by decide) (by decide) (by decide)
      (sample_saved zeroStray) rfl).1,
    by decide,
    ((palette_entry0_unused zeroStray (singleFile "a.tex" sampleTexture) _
      (singleFile "b.tex" sampleTextureEntry0) "a.tex" "b.tex" sampleTexture
      sampleTextureEntry0 sampleBitmap rfl rfl (by decide) (by decide) (by decide)
      (sample_saved zeroStray) rfl).2 1 0 (by decide) (by decide) (by decide)).1⟩

end Tex2Bmp
